import Mathlib

/-
Verification of the orbit repository's great-circle solver (src/gpredict/locator.ts)
and footprint projector (src/gpredict/satmap.ts).

The JavaScript number computations are modelled over the real numbers.  JS
constructs are embedded as follows:

* Math.sin, Math.cos, Math.asin, Math.acos are Real.sin, Real.cos,
  Real.arcsin, Real.arccos; Math.atan2 y x is the argument of the complex
  number x + y*i (both have range (-pi, pi], with atan2 0 0 = 0 = arg 0).
* the JS remainder a % b (sign of the dividend, truncated division) is
  jsRem below; division by zero yields 0 in Lean where JS produces
  Infinity/NaN, and every spot where this matters is noted at the
  definition it affects.
* the bounded while-loops that renormalise an angle by repeatedly adding or
  subtracting a period are the well-founded recursions wrapUp/wrapDown.
* an out-of-bounds array access (which throws a TypeError in JS) makes the
  enclosing function return none; split_points and calculate_footprint
  therefore return an Option.
-/

noncomputable section

namespace Orbit

/-- Truncation toward zero, as used by the JS % operator. -/
def jsTrunc (r : ℝ) : ℝ := if 0 ≤ r then ((⌊r⌋ : ℤ) : ℝ) else -((⌊-r⌋ : ℤ) : ℝ)

/-- JS remainder a % b = a - b * trunc (a / b) (for finite nonzero b). -/
def jsRem (a b : ℝ) : ℝ := a - b * jsTrunc (a / b)

/-- Math.atan2 y x, the angle of the point (x, y), with range (-pi, pi]. -/
def atan2 (y x : ℝ) : ℝ := Complex.arg (Complex.mk x y)

/-! Constants of locator.ts. -/

/-- RADIAN = 180.0 / Math.PI. -/
def RADIAN : ℝ := 180 / Real.pi

/-- Arc length in km for 1 degree of arc. -/
def ARC_IN_KM : ℝ := 111.2

/-- Result record of qrb: res is "RIG_OK" or "RIG_EINVAL". -/
structure QrbResult where
  res : String
  distance : ℝ
  azimuth : ℝ

/-- Pole-singularity nudge of locator.ts lines 71-79: a latitude of exactly
90 (resp. -90) becomes 89.999999999 (resp. -89.999999999). -/
def nudgeLat (lat : ℝ) : ℝ :=
  if lat = 90 then 89.999999999
  else if lat = -90 then -89.999999999
  else lat

/-- Spherical law-of-cosines value tmp of locator.ts line 89, computed on the
nudged latitudes converted to radians. -/
def qrb_tmp (lon1 lat1 lon2 lat2 : ℝ) : ℝ :=
  Real.sin (nudgeLat lat1 / RADIAN) * Real.sin (nudgeLat lat2 / RADIAN) +
    Real.cos (nudgeLat lat1 / RADIAN) * Real.cos (nudgeLat lat2 / RADIAN) *
      Real.cos (lon2 / RADIAN - lon1 / RADIAN)

open Classical in
/-- Embedding of qrb (locator.ts lines 55-147): distance and bearing between
two points, with input validation and degenerate-case handling.  The line
az = az % 2 * Math.PI is reproduced literally (jsRem az 2 * pi). -/
def qrb (lon1 lat1 lon2 lat2 : ℝ) : QrbResult :=
  if lat1 > 90 ∨ lat1 < -90 ∨ lat2 > 90 ∨ lat2 < -90 then
    ⟨"RIG_EINVAL", 0, 0⟩
  else if lon1 > 180 ∨ lon1 < -180 ∨ lon2 > 180 ∨ lon2 < -180 then
    ⟨"RIG_EINVAL", 0, 0⟩
  else
    let la1 := nudgeLat lat1 / RADIAN
    let lo1 := lon1 / RADIAN
    let la2 := nudgeLat lat2 / RADIAN
    let lo2 := lon2 / RADIAN
    let tmp := qrb_tmp lon1 lat1 lon2 lat2
    if tmp > 0.999999999999999 then
      ⟨"RIG_OK", 0, 0⟩
    else if tmp < -0.999999 then
      ⟨"RIG_OK", 180 * ARC_IN_KM, 0⟩
    else
      let arc := Real.arccos tmp
      let distance := ARC_IN_KM * RADIAN * arc
      let az0 := atan2 (Real.sin (lo1 - lo2) * Real.cos la2)
        (Real.cos la1 * Real.sin la2 - Real.sin la1 * Real.cos la2 * Real.cos (lo1 - lo2))
      let az1 := jsRem az0 2 * Real.pi
      let az2 := RADIAN * az1
      if lo1 > lo2 then ⟨"RIG_OK", distance, -(az2 - 360)⟩
      else if az2 ≥ 0 then ⟨"RIG_OK", distance, az2⟩
      else ⟨"RIG_OK", distance, -az2⟩

/-! Embedding of satmap.ts. -/

/-- Degrees-to-radians factor of satmap.ts. -/
def de2ra : ℝ := Real.pi / 180

/-- Earth radius in km. -/
def xkmper : ℝ := 6.378135e3

/-- Satellite state: sub-satellite point in degrees and footprint diameter in km. -/
structure Sat where
  ssplat : ℝ
  ssplon : ℝ
  footprint : ℝ

/-- Equirectangular map descriptor. -/
structure SatMap where
  left_side_lon : ℝ
  width : ℝ
  height : ℝ
  x0 : ℝ
  y0 : ℝ

/-- Canvas point. -/
structure XY where
  x : ℝ
  y : ℝ

open Classical in
/-- While-loop adding w while the value is strictly below lo (the JS loop
diverges for w that is not positive, in which case this returns the input). -/
def wrapUp (w lo x : ℝ) : ℝ :=
  if h : 0 < w ∧ x < lo then wrapUp w lo (x + w) else x
termination_by (⌈(lo - x) / w⌉).toNat
decreasing_by
  have hw := h.1
  have hr : (lo - (x + w)) / w = (lo - x) / w - 1 := by
    field_simp
    ring
  have hpos : 0 < ⌈(lo - x) / w⌉ := Int.ceil_pos.mpr (div_pos (by linarith [h.2]) hw)
  rw [hr, Int.ceil_sub_one]
  omega

open Classical in
/-- While-loop subtracting w while the value is strictly above hi. -/
def wrapDown (w hi x : ℝ) : ℝ :=
  if h : 0 < w ∧ hi < x then wrapDown w hi (x - w) else x
termination_by (⌈(x - hi) / w⌉).toNat
decreasing_by
  have hw := h.1
  have hr : (x - w - hi) / w = (x - hi) / w - 1 := by
    field_simp
    ring
  have hpos : 0 < ⌈(x - hi) / w⌉ := Int.ceil_pos.mpr (div_pos (by linarith [h.2]) hw)
  rw [hr, Int.ceil_sub_one]
  omega

/-- Projection of satmap.ts lines 194-204: linear lon/lat to pixel x/y with
the x coordinate wrapped into [0, width] by the two while loops. -/
def lonlat_to_xy (p : SatMap) (lon lat : ℝ) : ℝ × ℝ :=
  (wrapDown p.width p.width (wrapUp p.width 0 (p.x0 + (lon - p.left_side_lon) * p.width / 360)),
   p.y0 + (90 - lat) * p.height / 180)

open Classical in
/-- Helper arccos of satmap.ts lines 183-191.  In the x = 0 or y = 0 case the
JS function returns 0; for y = 0 and x nonzero the caller feeds it num/dem
with dem = 0, whose JS quotient is infinite and is filtered out before the
call, while Lean division by zero gives 0 and takes the same 0 branch here. -/
def arccos (x y : ℝ) : ℝ :=
  if x ≠ 0 ∧ y ≠ 0 then
    if 0 < y then Real.arccos (x / y)
    else if y < 0 then Real.pi + Real.arccos (x / y)
    else 0
  else 0

/-- North-pole test of satmap.ts lines 166-172: the qrb distance from the
sub-satellite point to (0, 90) is at most half the footprint.  The guard on
res only logs; the distance (0 for an invalid coordinate) is used as is. -/
def north_pole_is_covered (sat : Sat) : Prop :=
  (qrb sat.ssplon sat.ssplat 0 90).distance ≤ 0.5 * sat.footprint

/-- South-pole test of satmap.ts lines 175-181. -/
def south_pole_is_covered (sat : Sat) : Prop :=
  (qrb sat.ssplon sat.ssplat 0 (-90)).distance ≤ 0.5 * sat.footprint

/-- Pole test of satmap.ts lines 161-163. -/
def pole_is_covered (sat : Sat) : Prop :=
  north_pole_is_covered sat ∨ south_pole_is_covered sat

open Classical in
/-- Body of the sampling loop of calculate_footprint (satmap.ts lines 98-124)
for one azimuth step azi in [0, 180): the resulting (rangelon, rangelat) of
the sample, in degrees.  Where JS computes num/dem with dem = 0 it gets an
infinite or NaN quotient, never passes the magnitude test, and lands in the
arccos helper 0 branch through the explicit rangelon = ssplon assignment;
Lean division by zero gives 0, which fails the magnitude test and reaches
rangelon = ssplon through arccos num 0 = 0, the same value. -/
def rangeCoords (sat : Sat) (azi : ℕ) : ℝ × ℝ :=
  let ssplat := sat.ssplat * de2ra
  let ssplon := sat.ssplon * de2ra
  let beta := (0.5 * sat.footprint) / xkmper
  let azimuth := de2ra * (azi : ℝ)
  let rangelat := Real.arcsin (Real.sin ssplat * Real.cos beta +
    Real.cos azimuth * Real.sin beta * Real.cos ssplat)
  let num := Real.cos beta - Real.sin ssplat * Real.sin rangelat
  let dem := Real.cos ssplat * Real.cos rangelat
  let rangelon :=
    if azi = 0 ∧ north_pole_is_covered sat then ssplon + Real.pi
    else if 1 < |num / dem| then ssplon
    else if (0 : ℝ) ≤ 180 - (azi : ℝ) then ssplon - arccos num dem
    else ssplon + arccos num dem
  let rangelon := wrapDown (2 * Real.pi) Real.pi (wrapUp (2 * Real.pi) (-Real.pi) rangelon)
  (rangelon / de2ra, rangelat / de2ra)

/-- Mirrored longitude computed by mirror_lon (satmap.ts lines 279-296). -/
def mirror_mlon (sat : Sat) (rangelon : ℝ) : ℝ :=
  let diff := wrapDown 360 360 (wrapUp 360 0 (sat.ssplon - rangelon))
  wrapUp 360 (-180) (wrapDown 360 180 (sat.ssplon + |diff|))

/-- Warp flag computed by mirror_lon (satmap.ts lines 298-314): mapbreak is
satmap.left_side_lon and inBand v holds when v is in
[mapbreak, mapbreak+180) or [mapbreak-360, mapbreak-180). -/
def mirror_warped (sat : Sat) (rangelon mapbreak : ℝ) : Prop :=
  let inBand : ℝ → Prop := fun v =>
    (mapbreak ≤ v ∧ v < mapbreak + 180) ∨ (v < mapbreak - 180 ∧ mapbreak - 360 ≤ v)
  if inBand sat.ssplon then ¬inBand rangelon
  else inBand (mirror_mlon sat rangelon)

open Classical in
/-- Final contents of the 360-slot points1 array after the sampling loop of
calculate_footprint (satmap.ts lines 98-137): position azi holds the sample
for azimuth azi in [0, 180), position 359 - azi its longitude mirror. -/
def samplePoints (satmap : SatMap) (sat : Sat) : List XY :=
  List.ofFn fun i : Fin 360 =>
    if (i : ℕ) < 180 then
      let rc := rangeCoords sat (i : ℕ)
      let sxy := lonlat_to_xy satmap rc.1 rc.2
      ⟨sxy.1, sxy.2⟩
    else
      let rc := rangeCoords sat (359 - (i : ℕ))
      let mlon := mirror_mlon sat rc.1
      let msxy := lonlat_to_xy satmap mlon rc.2
      ⟨msxy.1, msxy.2⟩

/-- Accumulated warp flag of the sampling loop: some azimuth step warps. -/
def warped (satmap : SatMap) (sat : Sat) : Prop :=
  ∃ azi : ℕ, azi < 180 ∧ mirror_warped sat (rangeCoords sat azi).1 satmap.left_side_lon

open Classical in
/-- Sort key of compare_coordinates_x (ascending pixel x). -/
def sortByX (points : List XY) : List XY :=
  points.mergeSort fun a b => decide (a.x ≤ b.x)

open Classical in
/-- Sort key of compare_coordinates_y (ascending pixel y), used by
sort_points_y. -/
def sortByY (points : List XY) : List XY :=
  points.mergeSort fun a b => decide (a.y ≤ b.y)

open Classical in
/-- Embedding of sort_points_x (satmap.ts lines 232-262): sort by x, move the
former extremes to positions 1 and N-2 stretched onto the side borders, and
overwrite positions 0 and N-1 with the top (ssplat > 0) or bottom corners. -/
def sort_points_x (satmap : SatMap) (sat : Sat) (points : List XY) : List XY :=
  let s := sortByX points
  let n := s.length
  let s1 := s.set 1 ⟨satmap.x0, (s.getD 0 ⟨0, 0⟩).y⟩
  let s2 := s1.set (n - 2) ⟨satmap.x0 + satmap.width, (s.getD (n - 1) ⟨0, 0⟩).y⟩
  let c0 : XY :=
    if 0 < sat.ssplat then ⟨satmap.x0, satmap.y0⟩
    else ⟨satmap.x0, satmap.y0 + satmap.height⟩
  let cN : XY :=
    if 0 < sat.ssplat then ⟨satmap.x0 + satmap.width, satmap.y0⟩
    else ⟨satmap.x0 + satmap.width, satmap.y0 + satmap.height⟩
  (s2.set 0 c0).set (n - 1) cN

open Classical in
/-- Forward scan: the first index at or after i whose point satisfies p, or
none when the scan walks past the end of the array (in JS this dereferences
the undefined element points1[n] and throws). -/
def scanUp (p : XY → Prop) (ps : List XY) (i : ℕ) : Option ℕ :=
  if h : i < ps.length then
    if p (ps.get ⟨i, h⟩) then some i else scanUp p ps (i + 1)
  else none
termination_by ps.length - i

open Classical in
/-- Backward scan: the first index at or below i whose point satisfies p, or
none when the scan walks past index 0 (JS would dereference points1[-1]). -/
def scanDown (p : XY → Prop) (ps : List XY) (i : ℕ) : Option ℕ :=
  if h : i < ps.length then
    if p (ps.get ⟨i, h⟩) then some i
    else if i = 0 then none
    else scanDown p ps (i - 1)
  else none

/-- Overwrite the x coordinate of the element at position i, keeping its y
(the JS statement points[i].x = v). -/
def setX (l : List XY) (i : ℕ) (v : ℝ) : List XY :=
  l.set i ⟨v, (l.getD i ⟨0, 0⟩).y⟩

/-- Pin both end points of a polyline onto the vertical border x = v. -/
def setEndsX (l : List XY) (v : ℝ) : List XY :=
  setX (setX l 0 v) (l.length - 1) v

open Classical in
/-- Border-stretching step of split_points (satmap.ts lines 463-475): the
polyline whose head is past the map midpoint is pinned to the right border,
the other to the left border.  Reading the head of an empty polyline throws
in JS, hence none. -/
def stretch (satmap : SatMap) (p1 p2 : List XY) : Option (List XY × List XY) :=
  if p1 = [] ∨ p2 = [] then none
  else if satmap.x0 + satmap.width / 2 < (p1.getD 0 ⟨0, 0⟩).x then
    some (setEndsX p1 (satmap.x0 + satmap.width), setEndsX p2 satmap.x0)
  else
    some (setEndsX p1 satmap.x0, setEndsX p2 (satmap.x0 + satmap.width))

open Classical in
/-- Embedding of split_points (satmap.ts lines 347-478).  The three branches
(seam, left of midpoint, right of midpoint) produce the two point sets tps1
and tps2 exactly as the hand-written scans do, and none models the JS
TypeError thrown when a scan runs off the array or a border stretch hits an
empty polyline. -/
def split_points (satmap : SatMap) (sat : Sat) (sspx : ℝ) (points1 : List XY) :
    Option (List XY × List XY) :=
  let mid := satmap.x0 + satmap.width / 2
  if 179.4 ≤ sat.ssplon ∨ sat.ssplon ≤ -179.4 then
    stretch satmap (sortByY (points1.filter fun q => decide (mid < q.x)))
      (sortByY (points1.filter fun q => decide (¬mid < q.x)))
  else if sspx < mid then
    match scanUp (fun q => mid < q.x) points1 0 with
    | none => none
    | some i0 =>
      match scanUp (fun q => q.x ≤ mid) points1 i0 with
      | none => none
      | some i1 =>
        stretch satmap (points1.drop i1 ++ points1.take i0)
          ((points1.drop i0).take (i1 - i0))
  else
    match scanDown (fun q => q.x < mid) points1 (points1.length - 1) with
    | none => none
    | some j =>
      match scanDown (fun q => mid ≤ q.x) points1 j with
      | none => none
      | some j2 =>
        stretch satmap ((points1.take (j2 + 1)).reverse ++ (points1.drop (j + 1)).reverse)
          (((points1.drop (j2 + 1)).take (j - j2)).reverse)

open Classical in
/-- Embedding of calculate_footprint (satmap.ts lines 78-158): sample the
coverage circle into the 360-point array, then either sort (pole covered),
split (warped), or return the array as is. -/
def calculate_footprint (satmap : SatMap) (sat : Sat) : Option (List XY × List XY) :=
  let points1 := samplePoints satmap sat
  if pole_is_covered sat then
    some (sort_points_x satmap sat points1, [])
  else if warped satmap sat then
    split_points satmap sat (lonlat_to_xy satmap sat.ssplon sat.ssplat).1 points1
  else
    some (points1, [])

/-! Basic facts about qrb. -/

theorem qrb_valid_unfold (lon1 lat1 lon2 lat2 : ℝ)
    (hla1 : -90 ≤ lat1 ∧ lat1 ≤ 90) (hla2 : -90 ≤ lat2 ∧ lat2 ≤ 90)
    (hlo1 : -180 ≤ lon1 ∧ lon1 ≤ 180) (hlo2 : -180 ≤ lon2 ∧ lon2 ≤ 180) :
    qrb lon1 lat1 lon2 lat2 =
      (if qrb_tmp lon1 lat1 lon2 lat2 > 0.999999999999999 then ⟨"RIG_OK", 0, 0⟩
      else if qrb_tmp lon1 lat1 lon2 lat2 < -0.999999 then ⟨"RIG_OK", 180 * ARC_IN_KM, 0⟩
      else
        let la1 := nudgeLat lat1 / RADIAN
        let lo1 := lon1 / RADIAN
        let la2 := nudgeLat lat2 / RADIAN
        let lo2 := lon2 / RADIAN
        let arc := Real.arccos (qrb_tmp lon1 lat1 lon2 lat2)
        let distance := ARC_IN_KM * RADIAN * arc
        let az0 := atan2 (Real.sin (lo1 - lo2) * Real.cos la2)
          (Real.cos la1 * Real.sin la2 - Real.sin la1 * Real.cos la2 * Real.cos (lo1 - lo2))
        let az1 := jsRem az0 2 * Real.pi
        let az2 := RADIAN * az1
        if lo1 > lo2 then ⟨"RIG_OK", distance, -(az2 - 360)⟩
        else if az2 ≥ 0 then ⟨"RIG_OK", distance, az2⟩
        else ⟨"RIG_OK", distance, -az2⟩ : QrbResult) := by
  rw [qrb, if_neg, if_neg]
  · push_neg
    exact ⟨hlo1.2, hlo1.1, hlo2.2, hlo2.1⟩
  · push_neg
    exact ⟨hla1.2, hla1.1, hla2.2, hla2.1⟩

/-- C10 helper: the law-of-cosines value of a pair of identical points is 1. -/
theorem qrb_tmp_self (lon lat : ℝ) : qrb_tmp lon lat lon lat = 1 := by
  rw [qrb_tmp, sub_self, Real.cos_zero]
  have h := Real.sin_sq_add_cos_sq (nudgeLat lat / RADIAN)
  ring_nf
  ring_nf at h
  linarith

/-- Claim C10: for every valid coordinate pair given twice as the same point,
qrb returns the Ok status with distance 0 and azimuth 0, via the coincidence
threshold. -/
theorem qrb_same_point (lon lat : ℝ)
    (hla : -90 ≤ lat ∧ lat ≤ 90) (hlo : -180 ≤ lon ∧ lon ≤ 180) :
    qrb lon lat lon lat = ⟨"RIG_OK", 0, 0⟩ := by
  rw [qrb_valid_unfold lon lat lon lat hla hla hlo hlo, qrb_tmp_self, if_pos (by norm_num)]

/-- Witness for C10 at the concrete valid point (lon, lat) = (5, 7). -/
theorem qrb_same_point_witness : qrb 5 7 5 7 = ⟨"RIG_OK", 0, 0⟩ :=
  qrb_same_point 5 7 (by norm_num) (by norm_num)

/-- Claim C9: for every valid pair below the antipodal threshold, qrb returns
Ok with distance 180 * 111.2 = 20016 km and azimuth 0. -/
theorem qrb_antipodal (lon1 lat1 lon2 lat2 : ℝ)
    (hla1 : -90 ≤ lat1 ∧ lat1 ≤ 90) (hla2 : -90 ≤ lat2 ∧ lat2 ≤ 90)
    (hlo1 : -180 ≤ lon1 ∧ lon1 ≤ 180) (hlo2 : -180 ≤ lon2 ∧ lon2 ≤ 180)
    (htmp : qrb_tmp lon1 lat1 lon2 lat2 < -0.999999) :
    qrb lon1 lat1 lon2 lat2 = ⟨"RIG_OK", 20016, 0⟩ := by
  rw [qrb_valid_unfold lon1 lat1 lon2 lat2 hla1 hla2 hlo1 hlo2,
    if_neg (by push_neg; linarith), if_pos htmp]
  have : (180 : ℝ) * ARC_IN_KM = 20016 := by
    rw [ARC_IN_KM]
    norm_num
  rw [this]

/-- Witness for C9 at the exact antipodal points (0, 0) and (180, 0). -/
theorem qrb_antipodal_witness : qrb 0 0 180 0 = ⟨"RIG_OK", 20016, 0⟩ := by
  apply qrb_antipodal 0 0 180 0 (by norm_num) (by norm_num) (by norm_num) (by norm_num)
  have h0 : nudgeLat 0 = 0 := by
    rw [nudgeLat]
    norm_num
  have hpi : (180 : ℝ) / RADIAN - 0 / RADIAN = Real.pi := by
    rw [RADIAN]
    field_simp
  rw [qrb_tmp, h0, hpi]
  simp [Real.cos_pi]
  norm_num

/-- C8 helper: the law-of-cosines value is symmetric in its two points. -/
theorem qrb_tmp_symm (lon1 lat1 lon2 lat2 : ℝ) :
    qrb_tmp lon1 lat1 lon2 lat2 = qrb_tmp lon2 lat2 lon1 lat1 := by
  rw [qrb_tmp, qrb_tmp,
    show lon1 / RADIAN - lon2 / RADIAN = -(lon2 / RADIAN - lon1 / RADIAN) by ring,
    Real.cos_neg]
  ring

/-- Claim C8: for all valid coordinate pairs the qrb distance is symmetric
under swapping the two points (nothing is claimed about the azimuth). -/
theorem qrb_distance_symm (lon1 lat1 lon2 lat2 : ℝ)
    (hla1 : -90 ≤ lat1 ∧ lat1 ≤ 90) (hla2 : -90 ≤ lat2 ∧ lat2 ≤ 90)
    (hlo1 : -180 ≤ lon1 ∧ lon1 ≤ 180) (hlo2 : -180 ≤ lon2 ∧ lon2 ≤ 180) :
    (qrb lon1 lat1 lon2 lat2).distance = (qrb lon2 lat2 lon1 lat1).distance := by
  rw [qrb_valid_unfold lon1 lat1 lon2 lat2 hla1 hla2 hlo1 hlo2,
    qrb_valid_unfold lon2 lat2 lon1 lat1 hla2 hla1 hlo2 hlo1, ← qrb_tmp_symm]
  dsimp only
  split_ifs <;> rfl

/-- Witness for C8 at the concrete valid points (10, 20) and (30, -40). -/
theorem qrb_distance_symm_witness :
    (qrb 10 20 30 (-40)).distance = (qrb 30 (-40) 10 20).distance :=
  qrb_distance_symm 10 20 30 (-40) (by norm_num) (by norm_num) (by norm_num) (by norm_num)

/-- Claim C3: qrb returns the InvalidCoordinate status with distance 0 and
azimuth 0 exactly when a latitude is outside [-90, 90] or a longitude is
outside [-180, 180]; otherwise it returns the Ok status. -/
theorem qrb_invalid_iff (lon1 lat1 lon2 lat2 : ℝ) :
    ((qrb lon1 lat1 lon2 lat2).res = "RIG_EINVAL" ∧
        (qrb lon1 lat1 lon2 lat2).distance = 0 ∧ (qrb lon1 lat1 lon2 lat2).azimuth = 0 ↔
      ((lat1 > 90 ∨ lat1 < -90 ∨ lat2 > 90 ∨ lat2 < -90) ∨
        (lon1 > 180 ∨ lon1 < -180 ∨ lon2 > 180 ∨ lon2 < -180))) ∧
    (¬((lat1 > 90 ∨ lat1 < -90 ∨ lat2 > 90 ∨ lat2 < -90) ∨
        (lon1 > 180 ∨ lon1 < -180 ∨ lon2 > 180 ∨ lon2 < -180)) →
      (qrb lon1 lat1 lon2 lat2).res = "RIG_OK") := by
  have hne : ("RIG_OK" : String) ≠ "RIG_EINVAL" := by decide
  rw [qrb]
  by_cases h1 : lat1 > 90 ∨ lat1 < -90 ∨ lat2 > 90 ∨ lat2 < -90
  · rw [if_pos h1]
    simp [h1]
  · rw [if_neg h1]
    by_cases h2 : lon1 > 180 ∨ lon1 < -180 ∨ lon2 > 180 ∨ lon2 < -180
    · rw [if_pos h2]
      simp [h1, h2]
    · rw [if_neg h2]
      have hres : ∀ r : QrbResult,
          (r.res = "RIG_OK") → (r.res = "RIG_EINVAL" ↔ False) := by
        intro r hr
        rw [hr]
        simp [hne]
      constructor
      · constructor
        · intro hc
          exfalso
          have hthis := hc.1
          dsimp only at hthis
          split_ifs at hthis <;> simp at hthis
        · intro hc
          exact absurd hc (by simp [h1, h2])
      · intro _
        dsimp only
        split_ifs <;> rfl

/-! Azimuth range facts for C2. -/

/-- Bounds of the JS remainder by 2 on the atan2 range (-pi, pi]. -/
theorem jsRem_two_bounds (a : ℝ) (hlo : -Real.pi < a) (hhi : a ≤ Real.pi) :
    -2 < jsRem a 2 ∧ jsRem a 2 < 2 := by
  have hpi : Real.pi < 3.15 := Real.pi_lt_315
  rw [jsRem, jsTrunc]
  by_cases ha : 0 ≤ a / 2
  · rw [if_pos ha]
    by_cases ha2 : a < 2
    · have : ⌊a / 2⌋ = 0 := by
        rw [Int.floor_eq_zero_iff]
        constructor
        · exact ha
        · linarith
      rw [this]
      push_cast
      constructor <;> linarith
    · have : ⌊a / 2⌋ = 1 := by
        rw [Int.floor_eq_iff]
        push_cast
        constructor <;> linarith
      rw [this]
      push_cast
      constructor <;> linarith
  · rw [if_neg ha]
    push_neg at ha
    have ha0 : a < 0 := by linarith
    by_cases ha2 : -2 < a
    · have : ⌊-(a / 2)⌋ = 0 := by
        rw [Int.floor_eq_zero_iff]
        constructor
        · linarith
        · linarith
      rw [this]
      push_cast
      constructor <;> linarith
    · have : ⌊-(a / 2)⌋ = 1 := by
        rw [Int.floor_eq_iff]
        push_cast
        constructor <;> linarith
      rw [this]
      push_cast
      constructor <;> linarith

/-- The atan2 embedding inherits the range (-pi, pi] of Complex.arg. -/
theorem atan2_bounds (y x : ℝ) : -Real.pi < atan2 y x ∧ atan2 y x ≤ Real.pi :=
  ⟨Complex.neg_pi_lt_arg _, Complex.arg_le_pi _⟩

theorem RADIAN_mul_pi (r : ℝ) : RADIAN * (r * Real.pi) = 180 * r := by
  rw [RADIAN]
  field_simp
  ring

/-- Amended claim C2: for every valid, non-coincident, non-antipodal pair the
azimuth returned by qrb is non-negative and strictly less than 720 (the
literal az percent 2 times pi normalization together with the lon1 > lon2
branch can push it past 360, so [0, 360) fails; see the counterexample). -/
theorem qrb_azimuth_range (lon1 lat1 lon2 lat2 : ℝ)
    (hla1 : -90 ≤ lat1 ∧ lat1 ≤ 90) (hla2 : -90 ≤ lat2 ∧ lat2 ≤ 90)
    (hlo1 : -180 ≤ lon1 ∧ lon1 ≤ 180) (hlo2 : -180 ≤ lon2 ∧ lon2 ≤ 180)
    (hco : qrb_tmp lon1 lat1 lon2 lat2 ≤ 0.999999999999999)
    (han : -0.999999 ≤ qrb_tmp lon1 lat1 lon2 lat2) :
    0 ≤ (qrb lon1 lat1 lon2 lat2).azimuth ∧ (qrb lon1 lat1 lon2 lat2).azimuth < 720 := by
  rw [qrb_valid_unfold lon1 lat1 lon2 lat2 hla1 hla2 hlo1 hlo2,
    if_neg (not_lt.mpr hco), if_neg (not_lt.mpr han)]
  dsimp only
  set az0 := atan2 (Real.sin (lon1 / RADIAN - lon2 / RADIAN) * Real.cos (nudgeLat lat2 / RADIAN))
    (Real.cos (nudgeLat lat1 / RADIAN) * Real.sin (nudgeLat lat2 / RADIAN) -
      Real.sin (nudgeLat lat1 / RADIAN) * Real.cos (nudgeLat lat2 / RADIAN) *
        Real.cos (lon1 / RADIAN - lon2 / RADIAN)) with haz0
  obtain ⟨hj1, hj2⟩ := jsRem_two_bounds az0 (atan2_bounds _ _).1 (atan2_bounds _ _).2
  rw [RADIAN_mul_pi]
  split_ifs with hlon hpos
  · constructor <;> [skip; skip] <;> simp only [QrbResult.azimuth] <;> linarith
  · constructor <;> simp only [QrbResult.azimuth] <;> linarith
  · constructor <;> simp only [QrbResult.azimuth] <;> linarith

/-- Witness for the amended C2 at the valid non-degenerate pair (0,0), (90,0). -/
theorem qrb_azimuth_range_witness :
    0 ≤ (qrb 0 0 90 0).azimuth ∧ (qrb 0 0 90 0).azimuth < 720 := by
  apply qrb_azimuth_range 0 0 90 0 (by norm_num) (by norm_num) (by norm_num) (by norm_num)
  all_goals
    rw [qrb_tmp, show nudgeLat 0 = 0 by rw [nudgeLat]; norm_num,
      show (90 : ℝ) / RADIAN - 0 / RADIAN = Real.pi / 2 by rw [RADIAN]; field_simp; ring]
    simp [Real.cos_pi_div_two]
    norm_num

/-- Counterexample to claim C2 as stated: at the valid, non-coincident,
non-antipodal pair (180, 0), (-90, 0) the returned azimuth is
360 + 90 * pi, which is not below 360. -/
theorem qrb_azimuth_counterexample :
    qrb_tmp 180 0 (-90) 0 = 0 ∧
      (qrb 180 0 (-90) 0).res = "RIG_OK" ∧
      (qrb 180 0 (-90) 0).azimuth = 360 + 90 * Real.pi ∧
      ¬(qrb 180 0 (-90) 0).azimuth < 360 := by
  have hpi := Real.pi_pos
  have h0 : nudgeLat 0 = 0 := by
    rw [nudgeLat]
    norm_num
  have hd : (-90 : ℝ) / RADIAN - 180 / RADIAN = -(3 * Real.pi / 2) := by
    rw [RADIAN]
    field_simp
    ring
  have hd2 : (180 : ℝ) / RADIAN - -90 / RADIAN = 3 * Real.pi / 2 := by
    rw [RADIAN]
    field_simp
    ring
  have hcos32 : Real.cos (3 * Real.pi / 2) = 0 := by
    rw [show 3 * Real.pi / 2 = Real.pi + Real.pi / 2 by ring, Real.cos_add]
    simp
  have hsin32 : Real.sin (3 * Real.pi / 2) = -1 := by
    rw [show 3 * Real.pi / 2 = Real.pi + Real.pi / 2 by ring, Real.sin_add]
    simp
  have htmp : qrb_tmp 180 0 (-90) 0 = 0 := by
    rw [qrb_tmp, h0, hd, Real.cos_neg, hcos32]
    simp
  refine ⟨htmp, ?_⟩
  have hq : qrb 180 0 (-90) 0 = ⟨"RIG_OK", 10008, 360 + 90 * Real.pi⟩ := by
    rw [qrb_valid_unfold 180 0 (-90) 0 (by norm_num) (by norm_num) (by norm_num) (by norm_num),
      htmp, if_neg (by norm_num), if_neg (by norm_num)]
    dsimp only
    rw [h0, hd2, zero_div]
    have haz0 : atan2 (Real.sin (3 * Real.pi / 2) * Real.cos (0 : ℝ))
        (Real.cos (0 : ℝ) * Real.sin (0 : ℝ) -
          Real.sin (0 : ℝ) * Real.cos (0 : ℝ) * Real.cos (3 * Real.pi / 2)) =
        -(Real.pi / 2) := by
      rw [hsin32]
      simp only [Real.cos_zero, Real.sin_zero, mul_one, zero_mul, mul_zero, zero_sub,
        neg_mul, one_mul, zero_mul, sub_zero]
      rw [atan2, show Complex.mk 0 (-1) = -Complex.I by simp [Complex.ext_iff]]
      exact Complex.arg_neg_I
    rw [haz0]
    have hjr : jsRem (-(Real.pi / 2)) 2 = -(Real.pi / 2) := by
      rw [jsRem, jsTrunc, if_neg (by push_neg; linarith [Real.pi_pos])]
      have hfl : ⌊-(-(Real.pi / 2) / 2)⌋ = 0 := by
        rw [Int.floor_eq_zero_iff]
        constructor
        · linarith [Real.pi_pos]
        · have := Real.pi_lt_315
          norm_num
          linarith
      rw [hfl]
      push_cast
      ring
    have hR : (0 : ℝ) < RADIAN := by
      rw [RADIAN]
      positivity
    have hcond : (180 : ℝ) / RADIAN > -90 / RADIAN := by
      have hn : (-90 : ℝ) / RADIAN < 0 := div_neg_of_neg_of_pos (by norm_num) hR
      have hp : (0 : ℝ) < 180 / RADIAN := div_pos (by norm_num) hR
      linarith
    rw [hjr, RADIAN_mul_pi, if_pos hcond, Real.arccos_zero, ARC_IN_KM, RADIAN]
    simp only [QrbResult.mk.injEq]
    refine ⟨trivial, ?_, by ring⟩
    field_simp
    ring
  rw [hq]
  refine ⟨rfl, rfl, ?_⟩
  simp only [not_lt]
  show (360 : ℝ) ≤ 360 + 90 * Real.pi
  linarith

/-! Failure semantics of the pole test (C1). -/

/-- Helper: whenever qrb does not report RIG_OK the result is the sentinel
record with distance 0 and azimuth 0. -/
theorem qrb_einval_eq (lon1 lat1 lon2 lat2 : ℝ)
    (h : (qrb lon1 lat1 lon2 lat2).res ≠ "RIG_OK") :
    qrb lon1 lat1 lon2 lat2 = ⟨"RIG_EINVAL", 0, 0⟩ := by
  by_cases h1 : lat1 > 90 ∨ lat1 < -90 ∨ lat2 > 90 ∨ lat2 < -90
  · rw [qrb, if_pos h1]
  · by_cases h2 : lon1 > 180 ∨ lon1 < -180 ∨ lon2 > 180 ∨ lon2 < -180
    · rw [qrb, if_neg h1, if_pos h2]
    · exfalso
      apply h
      rw [qrb, if_neg h1, if_neg h2]
      dsimp only
      split_ifs <;> rfl

/-- Amended claim C1: when the internal qrb pole-distance calls return
InvalidCoordinate, the caller logs a warning but still uses the stale
sentinel distance 0, which passes the at-most-half-footprint test for every
non-negative footprint, so calculate_footprint does take the pole-covered
branch (the stated "treated as pole not covered" fails; the source has no
guard on the res tag beyond logging). -/
theorem pole_branch_on_invalid (s : Sat)
    (h : (qrb s.ssplon s.ssplat 0 90).res = "RIG_EINVAL")
    (hf : 0 ≤ s.footprint) :
    pole_is_covered s ∧ ∀ m : SatMap,
      calculate_footprint m s = some (sort_points_x m s (samplePoints m s), []) := by
  have hcov : pole_is_covered s := by
    left
    rw [north_pole_is_covered, qrb_einval_eq _ _ _ _ (by rw [h]; decide)]
    dsimp only
    linarith
  refine ⟨hcov, fun m => ?_⟩
  rw [calculate_footprint, if_pos hcov]

/-- Witness for the amended C1 at the state (ssplat, ssplon, footprint) =
(100, 5, 2000), whose pole-distance calls are invalid. -/
theorem pole_branch_on_invalid_witness :
    pole_is_covered ⟨100, 5, 2000⟩ ∧ ∀ m : SatMap,
      calculate_footprint m ⟨100, 5, 2000⟩ =
        some (sort_points_x m ⟨100, 5, 2000⟩ (samplePoints m ⟨100, 5, 2000⟩), []) := by
  apply pole_branch_on_invalid ⟨100, 5, 2000⟩
  · show (qrb 5 100 0 90).res = "RIG_EINVAL"
    rw [qrb, if_pos (by norm_num)]
  · norm_num

/-- Counterexample to claim C1 as stated: for the satellite state
(ssplat, ssplon, footprint) = (100, 0, 1000) both internal pole-distance
calls return InvalidCoordinate, yet pole_is_covered holds (distance 0 is at
most half the footprint) and calculate_footprint takes the pole-covered
sort branch rather than treating the poles as not covered. -/
theorem pole_invalid_counterexample :
    (qrb (0 : ℝ) 100 0 90).res = "RIG_EINVAL" ∧
      (qrb (0 : ℝ) 100 0 (-90)).res = "RIG_EINVAL" ∧
      pole_is_covered ⟨100, 0, 1000⟩ ∧
      calculate_footprint ⟨-180, 720, 360, 0, 0⟩ ⟨100, 0, 1000⟩ =
        some (sort_points_x ⟨-180, 720, 360, 0, 0⟩ ⟨100, 0, 1000⟩
          (samplePoints ⟨-180, 720, 360, 0, 0⟩ ⟨100, 0, 1000⟩), []) := by
  have hn : (qrb (0 : ℝ) 100 0 90).res = "RIG_EINVAL" := by
    rw [qrb, if_pos (by norm_num)]
  have hs : (qrb (0 : ℝ) 100 0 (-90)).res = "RIG_EINVAL" := by
    rw [qrb, if_pos (by norm_num)]
  have hcov : pole_is_covered ⟨100, 0, 1000⟩ := by
    left
    rw [north_pole_is_covered]
    show (qrb (0 : ℝ) 100 0 90).distance ≤ 0.5 * 1000
    rw [qrb_einval_eq _ _ _ _ (by rw [hn]; decide)]
    norm_num
  refine ⟨hn, hs, hcov, ?_⟩
  rw [calculate_footprint, if_pos hcov]

/-! Wrap bounds and the pole-distance computation. -/

theorem wrapUp_eq_self (w lo x : ℝ) (h : ¬(0 < w ∧ x < lo)) : wrapUp w lo x = x := by
  rw [wrapUp, dif_neg h]

theorem wrapDown_eq_self (w hi x : ℝ) (h : ¬(0 < w ∧ hi < x)) : wrapDown w hi x = x := by
  rw [wrapDown, dif_neg h]

theorem wrapUp_zero_nonneg (w : ℝ) (hw : 0 < w) (x : ℝ) : 0 ≤ wrapUp w 0 x := by
  induction x using wrapUp.induct w 0 with
  | case1 x h ih =>
    rw [wrapUp, dif_pos h]
    exact ih
  | case2 x h =>
    rw [wrapUp, dif_neg h]
    push_neg at h
    exact h hw

theorem wrapDown_self_bounds (w : ℝ) (hw : 0 < w) (x : ℝ) (hx : 0 ≤ x) :
    0 ≤ wrapDown w w x ∧ wrapDown w w x ≤ w := by
  revert hx
  induction x using wrapDown.induct w w with
  | case1 x h ih =>
    intro hx
    rw [wrapDown, dif_pos h]
    exact ih (by linarith [h.2])
  | case2 x h =>
    intro hx
    rw [wrapDown, dif_neg h]
    push_neg at h
    exact ⟨hx, h hw⟩

theorem lonlat_to_xy_x_bounds (p : SatMap) (hw : 0 < p.width) (lon lat : ℝ) :
    0 ≤ (lonlat_to_xy p lon lat).1 ∧ (lonlat_to_xy p lon lat).1 ≤ p.width := by
  rw [lonlat_to_xy]
  exact wrapDown_self_bounds p.width hw _ (wrapUp_zero_nonneg p.width hw _)

/-- Every point produced by the sampling loop has its x wrapped into
[0, width]. -/
theorem samplePoints_x_bounds (m : SatMap) (s : Sat) (hw : 0 < m.width) :
    ∀ q ∈ samplePoints m s, 0 ≤ q.x ∧ q.x ≤ m.width := by
  intro q hq
  rw [samplePoints, List.mem_ofFn] at hq
  obtain ⟨i, hi⟩ := hq
  by_cases hlt : (i : ℕ) < 180 <;>

    rw [← hi] <;>
    simp only [hlt, if_pos, if_neg, dite_eq_ite, if_true, if_false] <;>
    exact lonlat_to_xy_x_bounds m hw _ _

theorem samplePoints_length (m : SatMap) (s : Sat) : (samplePoints m s).length = 360 := by
  rw [samplePoints, List.length_ofFn]

theorem nudgeLat_90 : nudgeLat 90 = 89.999999999 := by
  rw [nudgeLat, if_pos rfl]

theorem nudgeLat_neg90 : nudgeLat (-90) = -89.999999999 := by
  rw [nudgeLat, if_neg (by norm_num), if_pos rfl]

theorem nudgeLat_zero : nudgeLat 0 = 0 := by
  rw [nudgeLat, if_neg (by norm_num), if_neg (by norm_num)]

theorem theta_eq : (89.999999999 : ℝ) / RADIAN = 89.999999999 * Real.pi / 180 := by
  rw [RADIAN]
  field_simp

theorem cos_theta_le_half : Real.cos (89.999999999 * Real.pi / 180) ≤ 1 / 2 := by
  have h := @Real.cos_le_cos_of_nonneg_of_le_pi (Real.pi / 3) (89.999999999 * Real.pi / 180)
    (by positivity) (by nlinarith [Real.pi_pos]) (by nlinarith [Real.pi_pos])
  rw [Real.cos_pi_div_three] at h
  exact h

theorem cos_theta_nonneg : 0 ≤ Real.cos (89.999999999 * Real.pi / 180) := by
  apply Real.cos_nonneg_of_mem_Icc
  constructor
  · nlinarith [Real.pi_pos]
  · nlinarith [Real.pi_pos]

/-- Helper: arccos is antitone. -/
theorem arccos_antitone (x y : ℝ) (h : x ≤ y) : Real.arccos y ≤ Real.arccos x := by
  rw [Real.arccos, Real.arccos]
  have := Real.monotone_arcsin h
  linarith

/-- Law-of-cosines value of a pole-distance call from a point on the
equator: it factors as cos of the nudged polar latitude times cos of the
longitude difference. -/
theorem qrb_tmp_pole (lon lat2 : ℝ) (hlat : lat2 = 90 ∨ lat2 = -90) :
    qrb_tmp lon 0 0 lat2 =
      Real.cos (89.999999999 * Real.pi / 180) * Real.cos (lon / RADIAN) := by
  have hc : Real.cos (nudgeLat lat2 / RADIAN) = Real.cos (89.999999999 * Real.pi / 180) := by
    rcases hlat with h | h <;> rw [h]
    · rw [nudgeLat_90, theta_eq]
    · rw [nudgeLat_neg90,
        show (-89.999999999 : ℝ) / RADIAN = -(89.999999999 / RADIAN) by ring,
        Real.cos_neg, theta_eq]
  rw [qrb_tmp, nudgeLat_zero, zero_div, Real.sin_zero, Real.cos_zero, hc,
    show (0 : ℝ) - lon / RADIAN = -(lon / RADIAN) by ring, Real.cos_neg]
  ring

/-- Distance returned by a pole-distance call from a point on the equator. -/
theorem qrb_pole_distance (lon lat2 : ℝ) (hlon : -180 ≤ lon ∧ lon ≤ 180)
    (hlat : lat2 = 90 ∨ lat2 = -90) :
    (qrb lon 0 0 lat2).distance =
      ARC_IN_KM * RADIAN *
        Real.arccos (Real.cos (89.999999999 * Real.pi / 180) * Real.cos (lon / RADIAN)) := by
  have hla2 : -90 ≤ lat2 ∧ lat2 ≤ 90 := by
    rcases hlat with h | h <;> rw [h] <;> norm_num
  have hcu := Real.cos_le_one (lon / RADIAN)
  have hcl := Real.neg_one_le_cos (lon / RADIAN)
  have hth1 := cos_theta_le_half
  have hth0 := cos_theta_nonneg
  have h1 : qrb_tmp lon 0 0 lat2 ≤ 1 / 2 := by
    rw [qrb_tmp_pole lon lat2 hlat]
    nlinarith
  have h2 : -(1 / 2) ≤ qrb_tmp lon 0 0 lat2 := by
    rw [qrb_tmp_pole lon lat2 hlat]
    nlinarith
  rw [qrb_valid_unfold lon 0 0 lat2 (by norm_num) hla2 hlon (by norm_num),
    if_neg (not_lt.mpr (le_trans h1 (by norm_num))),
    if_neg (not_lt.mpr (le_trans (by norm_num) h2)),
    qrb_tmp_pole lon lat2 hlat]
  dsimp only
  split_ifs <;> rfl

/-- Exact pole distance from the point (0, 0): 111.2 times 89.999999999 km. -/
theorem qrb_pole_distance_origin (lat2 : ℝ) (hlat : lat2 = 90 ∨ lat2 = -90) :
    (qrb 0 0 0 lat2).distance = 111.2 * 89.999999999 := by
  rw [qrb_pole_distance 0 lat2 (by norm_num) hlat, zero_div, Real.cos_zero, mul_one,
    Real.arccos_cos (by positivity) (by nlinarith [Real.pi_pos]), ARC_IN_KM, RADIAN]
  field_simp
  ring

/-- Lower bound for the pole distance from any equator point: at least
111.2 times 60 km. -/
theorem qrb_pole_distance_lb (lon lat2 : ℝ) (hlon : -180 ≤ lon ∧ lon ≤ 180)
    (hlat : lat2 = 90 ∨ lat2 = -90) :
    111.2 * 60 ≤ (qrb lon 0 0 lat2).distance := by
  rw [qrb_pole_distance lon lat2 hlon hlat]
  have hcu := Real.cos_le_one (lon / RADIAN)
  have hth0 := cos_theta_nonneg
  have h1 : Real.cos (89.999999999 * Real.pi / 180) * Real.cos (lon / RADIAN) ≤ 1 / 2 := by
    nlinarith [cos_theta_le_half]
  have h3 : Real.pi / 3 ≤
      Real.arccos (Real.cos (89.999999999 * Real.pi / 180) * Real.cos (lon / RADIAN)) := by
    have := arccos_antitone _ _ h1
    rw [show Real.arccos (1 / 2) = Real.pi / 3 by
      rw [← Real.cos_pi_div_three]
      exact Real.arccos_cos (by positivity) (by linarith [Real.pi_pos])] at this
    exact this
  have hAR : ARC_IN_KM * RADIAN * (Real.pi / 3) = 111.2 * 60 := by
    rw [ARC_IN_KM, RADIAN]
    field_simp
    ring
  have hpos : (0 : ℝ) < ARC_IN_KM * RADIAN := by
    rw [ARC_IN_KM, RADIAN]
    positivity
  nlinarith

/-! Exact evaluation of the nominal case for the state
(ssplat, ssplon, footprint) = (0, 0, 0). -/

theorem S4_not_pole : ¬pole_is_covered ⟨0, 0, 0⟩ := by
  rintro (h | h)
  · rw [north_pole_is_covered] at h
    dsimp only at h
    rw [qrb_pole_distance_origin 90 (Or.inl rfl)] at h
    norm_num at h
  · rw [south_pole_is_covered] at h
    dsimp only at h
    rw [qrb_pole_distance_origin (-90) (Or.inr rfl)] at h
    norm_num at h

theorem wrapUp_2pi_zero : wrapUp (2 * Real.pi) (-Real.pi) 0 = 0 := by
  apply wrapUp_eq_self
  rintro ⟨-, hx⟩
  linarith [Real.pi_pos]

theorem wrapDown_2pi_zero : wrapDown (2 * Real.pi) Real.pi 0 = 0 := by
  apply wrapDown_eq_self
  rintro ⟨-, hx⟩
  linarith [Real.pi_pos]

theorem rangeCoords_S4 (azi : ℕ) (h : azi < 180) :
    rangeCoords ⟨0, 0, 0⟩ azi = (0, 0) := by
  have hn : ¬(azi = 0 ∧ north_pole_is_covered ⟨0, 0, 0⟩) := by
    rintro ⟨-, hc⟩
    exact S4_not_pole (Or.inl hc)
  have h179 : (azi : ℝ) ≤ 179 := by
    exact_mod_cast Nat.lt_succ_iff.mp h
  simp only [rangeCoords]
  have harc11 : arccos 1 1 = 0 := by
    rw [arccos, if_pos ⟨one_ne_zero, one_ne_zero⟩, if_pos one_pos, div_one, Real.arccos_one]
  rw [if_neg hn]
  norm_num [harc11, ite_self, wrapUp_2pi_zero, wrapDown_2pi_zero]

theorem mirror_mlon_S4 : mirror_mlon ⟨0, 0, 0⟩ 0 = 0 := by
  rw [mirror_mlon]
  dsimp only
  rw [sub_zero, wrapUp_eq_self 360 0 0 (by rintro ⟨-, hx⟩; exact lt_irrefl 0 hx),
    wrapDown_eq_self 360 360 0 (by rintro ⟨-, hx⟩; norm_num at hx), abs_zero, add_zero,
    wrapDown_eq_self 360 180 0 (by rintro ⟨-, hx⟩; norm_num at hx),
    wrapUp_eq_self 360 (-180) 0 (by rintro ⟨-, hx⟩; norm_num at hx)]

theorem mirror_warped_S4_not : ¬mirror_warped ⟨0, 0, 0⟩ 0 (-180) := by
  rw [mirror_warped]
  dsimp only
  rw [if_neg (by norm_num), mirror_mlon_S4]
  norm_num

theorem warped_S4_not (m : SatMap) (hm : m.left_side_lon = -180) :
    ¬warped m ⟨0, 0, 0⟩ := by
  rintro ⟨azi, ha, hw⟩
  rw [rangeCoords_S4 azi ha, hm] at hw
  exact mirror_warped_S4_not hw

theorem lonlat_M4 :
    lonlat_to_xy ⟨-180, 720, 360, 1000, 0⟩ 0 0 = (640, 180) := by
  rw [lonlat_to_xy]
  dsimp only
  rw [show (1000 : ℝ) + (0 - -180) * 720 / 360 = 1360 by norm_num,
    wrapUp_eq_self 720 0 1360 (by rintro ⟨-, hx⟩; norm_num at hx),
    wrapDown, dif_pos (by norm_num),
    show (1360 : ℝ) - 720 = 640 by norm_num,
    wrapDown_eq_self 720 720 640 (by rintro ⟨-, hx⟩; norm_num at hx)]
  norm_num

set_option maxRecDepth 4000 in
theorem samplePoints_M4 :
    samplePoints ⟨-180, 720, 360, 1000, 0⟩ ⟨0, 0, 0⟩ = List.replicate 360 ⟨640, 180⟩ := by
  apply List.ext_getElem
  · rw [samplePoints_length, List.length_replicate]
  · intro i h1 h2
    rw [samplePoints_length] at h1
    simp only [samplePoints, List.getElem_ofFn, List.getElem_replicate]
    by_cases hi : i < 180
    · rw [if_pos hi, rangeCoords_S4 i hi]
      dsimp only
      rw [lonlat_M4]
    · rw [if_neg hi, rangeCoords_S4 (359 - i) (by omega)]
      dsimp only
      rw [mirror_mlon_S4, lonlat_M4]

/-- Amended claim C4: in the nominal case (neither pole covered, no sample
warped) calculate_footprint returns a single 360-point polyline and an empty
second polyline, and every x coordinate lies in [0, pixel_width] (the wrap
normalization targets [0, width], which equals the claimed
[origin_x, origin_x + pixel_width] only for origin_x = 0; see the
counterexample). -/
theorem calculate_footprint_nominal (m : SatMap) (s : Sat) (hw : 0 < m.width)
    (hpole : ¬pole_is_covered s) (hwarp : ¬warped m s) :
    calculate_footprint m s = some (samplePoints m s, []) ∧
      (samplePoints m s).length = 360 ∧
      ∀ q ∈ samplePoints m s, 0 ≤ q.x ∧ q.x ≤ m.width := by
  refine ⟨?_, samplePoints_length m s, samplePoints_x_bounds m s hw⟩
  rw [calculate_footprint, if_neg hpole, if_neg hwarp]

/-- Witness for the amended C4 on the map with origin 0 and the origin
satellite state with footprint 0. -/
theorem calculate_footprint_nominal_witness :
    calculate_footprint ⟨-180, 720, 360, 0, 0⟩ ⟨0, 0, 0⟩ =
        some (samplePoints ⟨-180, 720, 360, 0, 0⟩ ⟨0, 0, 0⟩, []) ∧
      (samplePoints ⟨-180, 720, 360, 0, 0⟩ ⟨0, 0, 0⟩).length = 360 ∧
      ∀ q ∈ samplePoints ⟨-180, 720, 360, 0, 0⟩ ⟨0, 0, 0⟩, 0 ≤ q.x ∧ q.x ≤ 720 :=
  calculate_footprint_nominal ⟨-180, 720, 360, 0, 0⟩ ⟨0, 0, 0⟩ (by norm_num)
    S4_not_pole (warped_S4_not _ rfl)

/-- Counterexample to claim C4 as stated: on the map with origin_x = 1000
and width 720 the nominal case produces points with x = 640, outside the
claimed range [origin_x, origin_x + pixel_width] = [1000, 1720]. -/
theorem footprint_x_range_counterexample :
    calculate_footprint ⟨-180, 720, 360, 1000, 0⟩ ⟨0, 0, 0⟩ =
        some (List.replicate 360 ⟨640, 180⟩, []) ∧
      ¬∀ q ∈ List.replicate 360 (⟨640, 180⟩ : XY),
        (1000 : ℝ) ≤ q.x ∧ q.x ≤ 1000 + 720 := by
  constructor
  · rw [calculate_footprint, if_neg S4_not_pole, if_neg (warped_S4_not _ rfl), samplePoints_M4]
  · intro hall
    have hm := hall ⟨640, 180⟩ (List.mem_replicate.mpr ⟨by norm_num, rfl⟩)
    norm_num at hm

/-! Sorting facts for the pole-covered branch (C5). -/

theorem sortByX_length (ps : List XY) : (sortByX ps).length = ps.length := by
  rw [sortByX, List.length_mergeSort]

theorem sortByX_mem (ps : List XY) (q : XY) (h : q ∈ sortByX ps) : q ∈ ps :=
  (List.mergeSort_perm ps _).mem_iff.mp h

theorem sortByX_sorted (ps : List XY) :
    List.Pairwise (fun a b : XY => a.x ≤ b.x) (sortByX ps) := by
  have h := @List.sorted_mergeSort XY (fun a b : XY => decide (a.x ≤ b.x))
    (fun a b c hab hbc => by
      simp only [decide_eq_true_eq] at *
      exact le_trans hab hbc)
    (fun a b => by
      simp only [Bool.or_eq_true, decide_eq_true_eq]
      exact le_total a.x b.x)
    ps
  exact h.imp fun hab => by simpa using hab

theorem sortByX_sorted_getD (ps : List XY) (i j : ℕ) (hij : i < j)
    (hj : j < (sortByX ps).length) :
    ((sortByX ps).getD i ⟨0, 0⟩).x ≤ ((sortByX ps).getD j ⟨0, 0⟩).x := by
  have hi : i < (sortByX ps).length := lt_trans hij hj
  rw [List.getD_eq_getElem _ _ hi, List.getD_eq_getElem _ _ hj]
  have h := List.pairwise_iff_get.mp (sortByX_sorted ps) ⟨i, hi⟩ ⟨j, hj⟩ hij
  simpa using h

theorem sortByX_getD_mem (ps : List XY) (i : ℕ) (h : i < (sortByX ps).length) :
    (sortByX ps).getD i ⟨0, 0⟩ ∈ ps := by
  rw [List.getD_eq_getElem _ _ h]
  exact sortByX_mem ps _ (List.getElem_mem h)

/-- Positional description of the output of sort_points_x on a 360-point
array. -/
theorem sort_points_x_getD (m : SatMap) (s : Sat) (ps : List XY) (hps : ps.length = 360) :
    (sort_points_x m s ps).length = 360 ∧
    (sort_points_x m s ps).getD 0 ⟨0, 0⟩ =
      (if 0 < s.ssplat then ⟨m.x0, m.y0⟩ else ⟨m.x0, m.y0 + m.height⟩) ∧
    (sort_points_x m s ps).getD 1 ⟨0, 0⟩ = ⟨m.x0, ((sortByX ps).getD 0 ⟨0, 0⟩).y⟩ ∧
    (∀ i, 2 ≤ i → i ≤ 357 →
      (sort_points_x m s ps).getD i ⟨0, 0⟩ = (sortByX ps).getD i ⟨0, 0⟩) ∧
    (sort_points_x m s ps).getD 358 ⟨0, 0⟩ =
      ⟨m.x0 + m.width, ((sortByX ps).getD 359 ⟨0, 0⟩).y⟩ ∧
    (sort_points_x m s ps).getD 359 ⟨0, 0⟩ =
      (if 0 < s.ssplat then ⟨m.x0 + m.width, m.y0⟩
        else ⟨m.x0 + m.width, m.y0 + m.height⟩) := by
  have hsp : (sortByX ps).length = 360 := by
    rw [sortByX_length, hps]
  have hlen : (sort_points_x m s ps).length = 360 := by
    rw [sort_points_x]
    simp only [List.length_set, hsp]
  refine ⟨hlen, ?_, ?_, ?_, ?_, ?_⟩
  · rw [sort_points_x]
    simp only [hsp]
    norm_num
    simp [List.getElem?_set, List.length_set, hsp]
  · rw [sort_points_x]
    simp only [hsp]
    norm_num
    simp [List.getElem?_set, List.length_set, hsp]
  · intro i h2 h357
    have hne0 : i ≠ 0 := by omega
    have hne1 : i ≠ 1 := by omega
    have hne358 : i ≠ 358 := by omega
    have hne359 : i ≠ 359 := by omega
    rw [sort_points_x]
    simp only [hsp]
    norm_num
    simp [List.getElem?_set, List.length_set, hsp, hne0, hne1, hne358, hne359,
      Ne.symm hne0, Ne.symm hne1, Ne.symm hne358, Ne.symm hne359]
  · rw [sort_points_x]
    simp only [hsp]
    norm_num
    simp [List.getElem?_set, List.length_set, hsp]
  · rw [sort_points_x]
    simp only [hsp]
    norm_num
    simp [List.getElem?_set, List.length_set, hsp]

/-- Amended claim C5: for every pole-covered input on a map with
origin_x = 0 and positive width, calculate_footprint returns a single
360-point polyline (second polyline empty) that is monotonically
non-decreasing in x, whose 2nd and 359th points sit exactly on the left and
right map borders, and whose first and last points are exactly the top map
corners when the sub-satellite latitude is positive and the bottom corners
otherwise (for origin_x away from 0 monotonicity fails, because the wrap
normalization keeps x in [0, width]; see the counterexample). -/
theorem calculate_footprint_pole (m : SatMap) (s : Sat) (hw : 0 < m.width)
    (hx0 : m.x0 = 0) (hpole : pole_is_covered s) :
    ∃ p1, calculate_footprint m s = some (p1, []) ∧ p1.length = 360 ∧
      (∀ i j : ℕ, i ≤ j → j < 360 → (p1.getD i ⟨0, 0⟩).x ≤ (p1.getD j ⟨0, 0⟩).x) ∧
      (p1.getD 1 ⟨0, 0⟩).x = m.x0 ∧ (p1.getD 358 ⟨0, 0⟩).x = m.x0 + m.width ∧
      p1.getD 0 ⟨0, 0⟩ =
        (if 0 < s.ssplat then ⟨m.x0, m.y0⟩ else ⟨m.x0, m.y0 + m.height⟩) ∧
      p1.getD 359 ⟨0, 0⟩ =
        (if 0 < s.ssplat then ⟨m.x0 + m.width, m.y0⟩
          else ⟨m.x0 + m.width, m.y0 + m.height⟩) := by
  obtain ⟨hlen, h0, h1, hmid, h358, h359⟩ :=
    sort_points_x_getD m s (samplePoints m s) (samplePoints_length m s)
  refine ⟨sort_points_x m s (samplePoints m s), ?_, hlen, ?_, by rw [h1], by rw [h358], h0, h359⟩
  · rw [calculate_footprint, if_pos hpole]
  · intro i j hij hj
    have hbnd : ∀ k, 2 ≤ k → k ≤ 357 →
        0 ≤ ((sort_points_x m s (samplePoints m s)).getD k ⟨0, 0⟩).x ∧
          ((sort_points_x m s (samplePoints m s)).getD k ⟨0, 0⟩).x ≤ m.width := by
      intro k hk2 hk357
      rw [hmid k hk2 hk357]
      have hkl : k < (sortByX (samplePoints m s)).length := by
        rw [sortByX_length, samplePoints_length]
        omega
      exact samplePoints_x_bounds m s hw _ (sortByX_getD_mem _ k hkl)
    have hvlo : ∀ k, k ≤ 1 → ((sort_points_x m s (samplePoints m s)).getD k ⟨0, 0⟩).x = 0 := by
      intro k hk
      interval_cases k
      · rw [h0]
        split_ifs <;> exact hx0
      · rw [h1]
        exact hx0
    have hvhi : ∀ k, 358 ≤ k → k ≤ 359 →
        ((sort_points_x m s (samplePoints m s)).getD k ⟨0, 0⟩).x = m.width := by
      intro k hk1 hk2
      interval_cases k
      · rw [h358, hx0]
        exact zero_add m.width
      · rw [h359]
        split_ifs <;> rw [hx0] <;> exact zero_add m.width
    by_cases hi1 : i ≤ 1
    · rw [hvlo i hi1]
      by_cases hj1 : j ≤ 1
      · rw [hvlo j hj1]
      · by_cases hj2 : j ≤ 357
        · exact (hbnd j (by omega) hj2).1
        · rw [hvhi j (by omega) (by omega)]
          exact hw.le
    · by_cases hi2 : i ≤ 357
      · by_cases hj2 : j ≤ 357
        · rw [hmid i (by omega) hi2, hmid j (by omega) hj2]
          rcases eq_or_lt_of_le hij with heq | hlt
          · rw [heq]
          · exact sortByX_sorted_getD _ i j hlt
              (by rw [sortByX_length, samplePoints_length]; omega)
        · rw [hvhi j (by omega) (by omega)]
          exact (hbnd i (by omega) hi2).2
      · rw [hvhi i (by omega) (by omega), hvhi j (by omega) (by omega)]

theorem S5_pole : pole_is_covered ⟨0, 0, 50000⟩ := by
  left
  rw [north_pole_is_covered]
  dsimp only
  rw [qrb_pole_distance_origin 90 (Or.inl rfl)]
  norm_num

/-- Witness for the amended C5: origin-0 map of width 720 and the state
(0, 0, 50000), whose footprint covers both poles. -/
theorem calculate_footprint_pole_witness :
    ∃ p1, calculate_footprint ⟨-180, 720, 360, 0, 0⟩ ⟨0, 0, 50000⟩ = some (p1, []) ∧
      p1.length = 360 ∧
      (∀ i j : ℕ, i ≤ j → j < 360 → (p1.getD i ⟨0, 0⟩).x ≤ (p1.getD j ⟨0, 0⟩).x) ∧
      (p1.getD 1 ⟨0, 0⟩).x = (0 : ℝ) ∧ (p1.getD 358 ⟨0, 0⟩).x = 0 + 720 ∧
      p1.getD 0 ⟨0, 0⟩ = ⟨0, 0 + 360⟩ ∧ p1.getD 359 ⟨0, 0⟩ = ⟨0 + 720, 0 + 360⟩ := by
  obtain ⟨p1, hcf, hlen, hmono, h1, h358, h0, h359⟩ :=
    calculate_footprint_pole ⟨-180, 720, 360, 0, 0⟩ ⟨0, 0, 50000⟩ (by norm_num) rfl S5_pole
  refine ⟨p1, hcf, hlen, hmono, h1, h358, ?_, ?_⟩
  · rw [h0, if_neg (by norm_num)]
  · rw [h359, if_neg (by norm_num)]

/-- Counterexample to claim C5 as stated: on the pole-covered input with
origin_x = 1000 the returned polyline is not monotonically non-decreasing in
x (its 2nd point is pinned to x = origin_x = 1000 while the 3rd is a wrapped
sample with x at most the width 720). -/
theorem pole_sort_monotone_counterexample :
    ∃ p1, calculate_footprint ⟨-180, 720, 360, 1000, 0⟩ ⟨0, 0, 50000⟩ = some (p1, []) ∧
      ¬∀ i j : ℕ, i ≤ j → j < 360 → (p1.getD i ⟨0, 0⟩).x ≤ (p1.getD j ⟨0, 0⟩).x := by
  obtain ⟨hlen, h0, h1, hmid, h358, h359⟩ :=
    sort_points_x_getD ⟨-180, 720, 360, 1000, 0⟩ ⟨0, 0, 50000⟩ _
      (samplePoints_length ⟨-180, 720, 360, 1000, 0⟩ ⟨0, 0, 50000⟩)
  refine ⟨_, by rw [calculate_footprint, if_pos S5_pole], ?_⟩
  intro hall
  have h12 := hall 1 2 (by norm_num) (by norm_num)
  rw [h1, hmid 2 (by norm_num) (by norm_num)] at h12
  have hb := samplePoints_x_bounds ⟨-180, 720, 360, 1000, 0⟩ ⟨0, 0, 50000⟩ (by norm_num) _
    (sortByX_getD_mem (samplePoints ⟨-180, 720, 360, 1000, 0⟩ ⟨0, 0, 50000⟩) 2
      (by rw [sortByX_length, samplePoints_length]; norm_num))
  dsimp only at h12 hb
  linarith [hb.2, h12]

/-! Scan and stretch lemmas for split_points (C6, C7). -/

/-- Both end points of a polyline sit exactly on the vertical line x = v. -/
def pinnedX (l : List XY) (v : ℝ) : Prop :=
  (l.getD 0 ⟨0, 0⟩).x = v ∧ (l.getD (l.length - 1) ⟨0, 0⟩).x = v

theorem setX_length (l : List XY) (i : ℕ) (v : ℝ) : (setX l i v).length = l.length := by
  rw [setX, List.length_set]

theorem setEndsX_length (l : List XY) (v : ℝ) : (setEndsX l v).length = l.length := by
  rw [setEndsX, setX_length, setX_length]

theorem setEndsX_ne_nil (l : List XY) (hl : l ≠ []) (v : ℝ) : setEndsX l v ≠ [] := by
  intro hc
  apply hl
  have := congrArg List.length hc
  rw [setEndsX_length] at this
  exact List.length_eq_zero.mp this

theorem setEndsX_pinned (l : List XY) (hl : l ≠ []) (v : ℝ) : pinnedX (setEndsX l v) v := by
  have hpos : 0 < l.length := List.length_pos.mpr hl
  have hl1 : l.length - 1 < l.length := by omega
  constructor
  · rw [setEndsX, setX, setX]
    by_cases h10 : l.length - 1 = 0
    · rw [List.getD_eq_getElem _ _ (by simp only [List.length_set]; omega)]
      rw [List.getElem_set, if_pos h10]
    · rw [List.getD_eq_getElem _ _ (by simp only [List.length_set]; omega)]
      rw [List.getElem_set, if_neg h10, List.getElem_set, if_pos rfl]
  · rw [setEndsX, setX, setX, List.getD_eq_getElem _ _ (by simp only [List.length_set]; omega)]
    simp only [List.length_set, setX_length]
    rw [List.getElem_set, if_pos rfl]

theorem stretch_some (m : SatMap) (p1 p2 q1 q2 : List XY)
    (h : stretch m p1 p2 = some (q1, q2)) :
    p1 ≠ [] ∧ p2 ≠ [] ∧ q1.length = p1.length ∧ q2.length = p2.length ∧
      ((pinnedX q1 (m.x0 + m.width) ∧ pinnedX q2 m.x0) ∨
        (pinnedX q1 m.x0 ∧ pinnedX q2 (m.x0 + m.width))) := by
  rw [stretch] at h
  by_cases hnil : p1 = [] ∨ p2 = []
  · rw [if_pos hnil] at h
    exact absurd h (by simp)
  · rw [if_neg hnil] at h
    push_neg at hnil
    refine ⟨hnil.1, hnil.2, ?_⟩
    split_ifs at h
    · simp only [Option.some.injEq, Prod.mk.injEq] at h
      obtain ⟨hq1, hq2⟩ := h
      subst hq1
      subst hq2
      exact ⟨setEndsX_length _ _, setEndsX_length _ _,
        Or.inl ⟨setEndsX_pinned _ hnil.1 _, setEndsX_pinned _ hnil.2 _⟩⟩
    · simp only [Option.some.injEq, Prod.mk.injEq] at h
      obtain ⟨hq1, hq2⟩ := h
      subst hq1
      subst hq2
      exact ⟨setEndsX_length _ _, setEndsX_length _ _,
        Or.inr ⟨setEndsX_pinned _ hnil.1 _, setEndsX_pinned _ hnil.2 _⟩⟩

theorem stretch_some_of (m : SatMap) (p1 p2 : List XY) (h1 : p1 ≠ []) (h2 : p2 ≠ []) :
    ∃ q1 q2, stretch m p1 p2 = some (q1, q2) ∧ q1 ≠ [] ∧ q2 ≠ [] := by
  rw [stretch, if_neg (by push_neg; exact ⟨h1, h2⟩)]
  split_ifs
  · exact ⟨_, _, rfl, setEndsX_ne_nil _ h1 _, setEndsX_ne_nil _ h2 _⟩
  · exact ⟨_, _, rfl, setEndsX_ne_nil _ h1 _, setEndsX_ne_nil _ h2 _⟩

theorem getD_eq_get (ps : List XY) (i : ℕ) (h : i < ps.length) :
    ps.getD i ⟨0, 0⟩ = ps.get ⟨i, h⟩ := by
  rw [List.getD_eq_getElem _ _ h, List.get_eq_getElem]

theorem scanUp_some_spec (p : XY → Prop) (ps : List XY) (i j : ℕ)
    (h : scanUp p ps i = some j) :
    i ≤ j ∧ j < ps.length ∧ p (ps.getD j ⟨0, 0⟩) ∧
      ∀ k, i ≤ k → k < j → ¬p (ps.getD k ⟨0, 0⟩) := by
  revert h
  induction i using scanUp.induct p ps with
  | case1 i hlt hp =>
    intro h
    rw [scanUp, dif_pos hlt, if_pos hp] at h
    simp only [Option.some.injEq] at h
    subst h
    rw [getD_eq_get ps i hlt]
    refine ⟨le_refl i, hlt, hp, ?_⟩
    intro k hk1 hk2
    exact absurd hk2 (by omega)
  | case2 i hlt hp ih =>
    intro h
    rw [scanUp, dif_pos hlt, if_neg hp] at h
    obtain ⟨h1, h2, h3, h4⟩ := ih h
    refine ⟨by omega, h2, h3, fun k hk1 hk2 => ?_⟩
    rcases eq_or_lt_of_le hk1 with heq | hgt
    · rw [← heq, getD_eq_get ps i hlt]
      exact hp
    · exact h4 k hgt hk2
  | case3 i hge =>
    intro h
    rw [scanUp, dif_neg hge] at h
    exact absurd h (by simp)

theorem scanUp_isSome (p : XY → Prop) (ps : List XY) (i k : ℕ) (hik : i ≤ k)
    (hk : k < ps.length) (hp : p (ps.getD k ⟨0, 0⟩)) :
    ∃ j, scanUp p ps i = some j := by
  revert hik
  induction i using scanUp.induct p ps with
  | case1 i hlt hp2 =>
    intro _
    exact ⟨i, by rw [scanUp, dif_pos hlt, if_pos hp2]⟩
  | case2 i hlt hp2 ih =>
    intro hik
    have hne : i ≠ k := by
      intro heq
      subst heq
      rw [getD_eq_get ps i hlt] at hp
      exact hp2 hp
    obtain ⟨j, hj⟩ := ih (by omega)
    exact ⟨j, by rw [scanUp, dif_pos hlt, if_neg hp2]; exact hj⟩
  | case3 i hge =>
    intro hik
    exact absurd hk (by omega)

theorem scanUp_none (p : XY → Prop) (ps : List XY) (i : ℕ)
    (h : ∀ q ∈ ps, ¬p q) : scanUp p ps i = none := by
  induction i using scanUp.induct p ps with
  | case1 i hlt hp =>
    exact absurd hp (h _ (List.get_mem ps i hlt))
  | case2 i hlt hp ih =>
    rw [scanUp, dif_pos hlt, if_neg hp]
    exact ih
  | case3 i hge =>
    rw [scanUp, dif_neg hge]

theorem scanDown_some_spec (p : XY → Prop) (ps : List XY) (i j : ℕ)
    (h : scanDown p ps i = some j) :
    j ≤ i ∧ j < ps.length ∧ p (ps.getD j ⟨0, 0⟩) ∧
      ∀ k, j < k → k ≤ i → ¬p (ps.getD k ⟨0, 0⟩) := by
  revert h
  induction i using scanDown.induct p ps with
  | case1 i hlt hp =>
    intro h
    rw [scanDown, dif_pos hlt, if_pos hp] at h
    simp only [Option.some.injEq] at h
    subst h
    rw [getD_eq_get ps i hlt]
    refine ⟨le_refl i, hlt, hp, ?_⟩
    intro k hk1 hk2
    exact absurd hk1 (by omega)
  | case2 hlt hp =>
    intro h
    rw [scanDown, dif_pos hlt, if_neg hp, if_pos rfl] at h
    exact absurd h (by simp)
  | case3 i hlt hp h0 ih =>
    intro h
    rw [scanDown, dif_pos hlt, if_neg hp, if_neg h0] at h
    obtain ⟨h1, h2, h3, h4⟩ := ih h
    refine ⟨by omega, h2, h3, fun k hk1 hk2 => ?_⟩
    rcases eq_or_lt_of_le hk2 with heq | hgt
    · rw [heq, getD_eq_get ps i hlt]
      exact hp
    · exact h4 k hk1 (by omega)
  | case4 i hge =>
    intro h
    rw [scanDown, dif_neg hge] at h
    exact absurd h (by simp)

theorem scanDown_isSome (p : XY → Prop) (ps : List XY) (i k : ℕ) (hki : k ≤ i)
    (hi : i < ps.length) (hp : p (ps.getD k ⟨0, 0⟩)) :
    ∃ j, scanDown p ps i = some j := by
  revert hki hi
  induction i using scanDown.induct p ps with
  | case1 i hlt hp2 =>
    intro _ _
    exact ⟨i, by rw [scanDown, dif_pos hlt, if_pos hp2]⟩
  | case2 hlt hp2 =>
    intro hki hi
    exfalso
    have hk0 : k = 0 := by omega
    subst hk0
    rw [getD_eq_get ps 0 hlt] at hp
    exact hp2 hp
  | case3 i hlt hp2 h0 ih =>
    intro hki hi
    have hne : k ≠ i := by
      intro heq
      subst heq
      rw [getD_eq_get ps k hlt] at hp
      exact hp2 hp
    obtain ⟨j, hj⟩ := ih (by omega) (by omega)
    exact ⟨j, by rw [scanDown, dif_pos hlt, if_neg hp2, if_neg h0]; exact hj⟩
  | case4 i hge =>
    intro hki hi
    exact absurd hi hge

theorem sortByY_length (ps : List XY) : (sortByY ps).length = ps.length := by
  rw [sortByY, List.length_mergeSort]

theorem sortByY_ne_nil (ps : List XY) (h : ps ≠ []) : sortByY ps ≠ [] := by
  intro hc
  apply h
  have := congrArg List.length hc
  rw [sortByY_length] at this
  exact List.length_eq_zero.mp this

theorem length_filter_not (l : List XY) (p : XY → Bool) :
    (l.filter p).length + (l.filter fun a => !p a).length = l.length := by
  induction l with
  | nil => rfl
  | cons a l ih =>
    by_cases ha : p a
    · simp [List.filter_cons, ha]
      omega
    · simp [List.filter_cons, ha]
      omega

/-- Amended claim C6: whenever the warped-branch splitter completes without
an out-of-bounds access on its 360-point input, it produces two non-empty
polylines that together contain exactly 360 points, one pinned at both ends
to x = origin_x + width and the other pinned to x = origin_x (completion is
not guaranteed for every warped input; see the counterexample). -/
theorem split_points_shape (m : SatMap) (s : Sat) (sspx : ℝ) (ps p1 p2 : List XY)
    (hps : ps.length = 360) (h : split_points m s sspx ps = some (p1, p2)) :
    p1 ≠ [] ∧ p2 ≠ [] ∧ p1.length + p2.length = 360 ∧
      ((pinnedX p1 (m.x0 + m.width) ∧ pinnedX p2 m.x0) ∨
        (pinnedX p1 m.x0 ∧ pinnedX p2 (m.x0 + m.width))) := by
  rw [split_points] at h
  by_cases hseam : 179.4 ≤ s.ssplon ∨ s.ssplon ≤ -179.4
  · rw [if_pos hseam] at h
    obtain ⟨hne1, hne2, hl1, hl2, hpin⟩ := stretch_some _ _ _ _ _ h
    have hflt : ((ps.filter fun q => decide (m.x0 + m.width / 2 < q.x)).length +
        (ps.filter fun q => decide (¬m.x0 + m.width / 2 < q.x)).length) = 360 := by
      rw [show (fun q : XY => decide (¬m.x0 + m.width / 2 < q.x)) =
          (fun q : XY => !decide (m.x0 + m.width / 2 < q.x)) from
            funext fun q => by rw [decide_not],
        length_filter_not, hps]
    refine ⟨?_, ?_, ?_, hpin⟩
    · intro hc
      apply hne1
      rw [hc] at hl1
      exact List.length_eq_zero.mp hl1.symm
    · intro hc
      apply hne2
      rw [hc] at hl2
      exact List.length_eq_zero.mp hl2.symm
    · rw [hl1, hl2, sortByY_length, sortByY_length]
      exact hflt
  · rw [if_neg hseam] at h
    by_cases hss : sspx < m.x0 + m.width / 2
    · rw [if_pos hss] at h
      rcases hs1 : scanUp (fun q => m.x0 + m.width / 2 < q.x) ps 0 with _ | i0
      · rw [hs1] at h
        exact absurd h (by simp)
      · rw [hs1] at h
        dsimp only at h
        rcases hs2 : scanUp (fun q => q.x ≤ m.x0 + m.width / 2) ps i0 with _ | i1
        · rw [hs2] at h
          exact absurd h (by simp)
        · rw [hs2] at h
          dsimp only at h
          obtain ⟨-, hi0, -, -⟩ := scanUp_some_spec _ _ _ _ hs1
          obtain ⟨hi01, hi1, -, -⟩ := scanUp_some_spec _ _ _ _ hs2
          obtain ⟨hne1, hne2, hl1, hl2, hpin⟩ := stretch_some _ _ _ _ _ h
          refine ⟨?_, ?_, ?_, hpin⟩
          · intro hc
            apply hne1
            rw [hc] at hl1
            exact List.length_eq_zero.mp hl1.symm
          · intro hc
            apply hne2
            rw [hc] at hl2
            exact List.length_eq_zero.mp hl2.symm
          · rw [hl1, hl2]
            simp only [List.length_append, List.length_drop, List.length_take, hps]
            omega
    · rw [if_neg hss] at h
      rcases hs1 : scanDown (fun q => q.x < m.x0 + m.width / 2) ps (ps.length - 1) with _ | j
      · rw [hs1] at h
        exact absurd h (by simp)
      · rw [hs1] at h
        dsimp only at h
        rcases hs2 : scanDown (fun q => m.x0 + m.width / 2 ≤ q.x) ps j with _ | j2
        · rw [hs2] at h
          exact absurd h (by simp)
        · rw [hs2] at h
          dsimp only at h
          obtain ⟨hj360, hj, -, -⟩ := scanDown_some_spec _ _ _ _ hs1
          obtain ⟨hj2j, hj2, -, -⟩ := scanDown_some_spec _ _ _ _ hs2
          obtain ⟨hne1, hne2, hl1, hl2, hpin⟩ := stretch_some _ _ _ _ _ h
          refine ⟨?_, ?_, ?_, hpin⟩
          · intro hc
            apply hne1
            rw [hc] at hl1
            exact List.length_eq_zero.mp hl1.symm
          · intro hc
            apply hne2
            rw [hc] at hl2
            exact List.length_eq_zero.mp hl2.symm
          · rw [hl1, hl2]
            simp only [List.length_append, List.length_reverse, List.length_drop,
              List.length_take, hps]
            omega

/-- Crossing conditions under which every scan of split_points stays in
bounds: used for the amended C7 and to build concrete completed splits. -/
theorem split_points_crossing_aux (m : SatMap) (s : Sat) (sspx : ℝ) (ps : List XY)
    (hseam : (179.4 ≤ s.ssplon ∨ s.ssplon ≤ -179.4) →
      (∃ q ∈ ps, m.x0 + m.width / 2 < q.x) ∧ (∃ q ∈ ps, ¬m.x0 + m.width / 2 < q.x))
    (hleft : ¬(179.4 ≤ s.ssplon ∨ s.ssplon ≤ -179.4) → sspx < m.x0 + m.width / 2 →
      ∃ i j, i < j ∧ j < ps.length ∧ m.x0 + m.width / 2 < (ps.getD i ⟨0, 0⟩).x ∧
        (ps.getD j ⟨0, 0⟩).x ≤ m.x0 + m.width / 2)
    (hright : ¬(179.4 ≤ s.ssplon ∨ s.ssplon ≤ -179.4) → ¬sspx < m.x0 + m.width / 2 →
      ∃ i j, i < j ∧ j < ps.length ∧ m.x0 + m.width / 2 ≤ (ps.getD i ⟨0, 0⟩).x ∧
        (ps.getD j ⟨0, 0⟩).x < m.x0 + m.width / 2) :
    ∃ p1 p2, split_points m s sspx ps = some (p1, p2) ∧ p1 ≠ [] ∧ p2 ≠ [] := by
  rw [split_points]
  by_cases hs : 179.4 ≤ s.ssplon ∨ s.ssplon ≤ -179.4
  · rw [if_pos hs]
    obtain ⟨⟨qa, hqa, hqax⟩, qb, hqb, hqbx⟩ := hseam hs
    apply stretch_some_of
    · apply sortByY_ne_nil
      intro hc
      have hmem : qa ∈ ps.filter fun q => decide (m.x0 + m.width / 2 < q.x) :=
        List.mem_filter.mpr ⟨hqa, by simpa using hqax⟩
      rw [hc] at hmem
      exact List.not_mem_nil qa hmem
    · apply sortByY_ne_nil
      intro hc
      have hmem : qb ∈ ps.filter fun q => decide (¬m.x0 + m.width / 2 < q.x) :=
        List.mem_filter.mpr ⟨hqb, by simpa using hqbx⟩
      rw [hc] at hmem
      exact List.not_mem_nil qb hmem
  · rw [if_neg hs]
    by_cases hss : sspx < m.x0 + m.width / 2
    · rw [if_pos hss]
      obtain ⟨i, j, hij, hjlen, hix, hjx⟩ := hleft hs hss
      obtain ⟨i0, hi0⟩ := scanUp_isSome (fun q => m.x0 + m.width / 2 < q.x) ps 0 i
        (Nat.zero_le i) (lt_trans hij hjlen) hix
      rw [hi0]
      dsimp only
      obtain ⟨-, hi0len, hi0p, hi0min⟩ := scanUp_some_spec _ _ _ _ hi0
      have hi0i : i0 ≤ i := by
        by_contra hlt2
        exact (hi0min i (Nat.zero_le i) (by omega)) hix
      obtain ⟨i1, hi1⟩ := scanUp_isSome (fun q => q.x ≤ m.x0 + m.width / 2) ps i0 j
        (by omega) hjlen hjx
      rw [hi1]
      dsimp only
      obtain ⟨hi01, hi1len, hi1p, -⟩ := scanUp_some_spec _ _ _ _ hi1
      have hi0lt1 : i0 < i1 := by
        rcases eq_or_lt_of_le hi01 with heq | hlt2
        · exfalso
          rw [heq] at hi0p
          exact absurd hi1p (not_le.mpr hi0p)
        · exact hlt2
      apply stretch_some_of
      · intro hc
        have h1 := (List.append_eq_nil.mp hc).1
        have h2 := congrArg List.length h1
        rw [List.length_drop] at h2
        simp only [List.length_nil] at h2
        omega
      · intro hc
        have h2 := congrArg List.length hc
        rw [List.length_take, List.length_drop] at h2
        simp only [List.length_nil] at h2
        omega
    · rw [if_neg hss]
      obtain ⟨i, j, hij, hjlen, hix, hjx⟩ := hright hs hss
      obtain ⟨jj, hjj⟩ := scanDown_isSome (fun q => q.x < m.x0 + m.width / 2) ps
        (ps.length - 1) j (by omega) (by omega) hjx
      rw [hjj]
      dsimp only
      obtain ⟨hjjle, hjjlen, hjjp, hjjmin⟩ := scanDown_some_spec _ _ _ _ hjj
      have hjjge : j ≤ jj := by
        by_contra hlt2
        exact (hjjmin j (by omega) (by omega)) hjx
      obtain ⟨j2, hj2⟩ := scanDown_isSome (fun q => m.x0 + m.width / 2 ≤ q.x) ps jj i
        (by omega) hjjlen hix
      rw [hj2]
      dsimp only
      obtain ⟨hj2le, hj2len, hj2p, -⟩ := scanDown_some_spec _ _ _ _ hj2
      have hj2lt : j2 < jj := by
        rcases eq_or_lt_of_le hj2le with heq | hlt2
        · exfalso
          rw [heq] at hj2p
          exact absurd hj2p (not_le.mpr hjjp)
        · exact hlt2
      apply stretch_some_of
      · intro hc
        have h1 := (List.append_eq_nil.mp hc).1
        have h2 := congrArg List.length h1
        rw [List.length_reverse, List.length_take] at h2
        simp only [List.length_nil] at h2
        omega
      · intro hc
        have h2 := congrArg List.length hc
        rw [List.length_reverse, List.length_take, List.length_drop] at h2
        simp only [List.length_nil] at h2
        omega

/-- Amended claim C7: provided the 360-point array actually crosses the map
midpoint in the direction scanned by the branch that runs (strictly past the
midpoint and back for the left-of-midpoint branch, the mirror image for the
right-of-midpoint branch, and one point on each side of the midpoint for the
seam branch), every array access in split_points is in bounds: the function
completes with two non-empty polylines.  Without such a crossing the scans
run off the array; see the counterexample. -/
theorem split_points_in_bounds (m : SatMap) (s : Sat) (sspx : ℝ) (ps : List XY)
    (hseam : (179.4 ≤ s.ssplon ∨ s.ssplon ≤ -179.4) →
      (∃ q ∈ ps, m.x0 + m.width / 2 < q.x) ∧ (∃ q ∈ ps, ¬m.x0 + m.width / 2 < q.x))
    (hleft : ¬(179.4 ≤ s.ssplon ∨ s.ssplon ≤ -179.4) → sspx < m.x0 + m.width / 2 →
      ∃ i j, i < j ∧ j < ps.length ∧ m.x0 + m.width / 2 < (ps.getD i ⟨0, 0⟩).x ∧
        (ps.getD j ⟨0, 0⟩).x ≤ m.x0 + m.width / 2)
    (hright : ¬(179.4 ≤ s.ssplon ∨ s.ssplon ≤ -179.4) → ¬sspx < m.x0 + m.width / 2 →
      ∃ i j, i < j ∧ j < ps.length ∧ m.x0 + m.width / 2 ≤ (ps.getD i ⟨0, 0⟩).x ∧
        (ps.getD j ⟨0, 0⟩).x < m.x0 + m.width / 2) :
    ∃ p1 p2, split_points m s sspx ps = some (p1, p2) ∧ p1 ≠ [] ∧ p2 ≠ [] :=
  split_points_crossing_aux m s sspx ps hseam hleft hright

set_option maxRecDepth 10000 in
/-- Witness for the amended C7 at a concrete 360-point array crossing the
midpoint x = 360 of an origin-0 map of width 720. -/
theorem split_points_in_bounds_witness :
    ∃ p1 p2, split_points ⟨0, 720, 360, 0, 0⟩ ⟨0, -90, 1000⟩ 100
      (⟨500, 7⟩ :: List.replicate 359 ⟨100, 3⟩) = some (p1, p2) ∧ p1 ≠ [] ∧ p2 ≠ [] := by
  apply split_points_in_bounds
  · intro hs
    dsimp only at hs
    exact absurd hs (by norm_num)
  · intro _ _
    refine ⟨0, 1, by norm_num, by simp, ?_, ?_⟩
    · dsimp only
      norm_num
    · dsimp only
      rw [List.getD_cons_succ]
      rw [List.getD_eq_getElem _ _ (by simp), List.getElem_replicate]
      norm_num
  · intro _ hss
    exfalso
    apply hss
    dsimp only
    norm_num

set_option maxRecDepth 10000 in
/-- Witness for the amended C6: a completed concrete split with its two
non-empty polylines holding 360 points in total with border-pinned ends. -/
theorem split_points_shape_witness :
    ∃ p1 p2, split_points ⟨0, 720, 360, 0, 0⟩ ⟨0, -90, 1000⟩ 90
        (⟨600, 7⟩ :: List.replicate 359 ⟨50, 3⟩) = some (p1, p2) ∧
      p1 ≠ [] ∧ p2 ≠ [] ∧ p1.length + p2.length = 360 ∧
        ((pinnedX p1 ((0 : ℝ) + 720) ∧ pinnedX p2 0) ∨
          (pinnedX p1 0 ∧ pinnedX p2 ((0 : ℝ) + 720))) := by
  obtain ⟨p1, p2, heq, -, -⟩ :=
    split_points_crossing_aux ⟨0, 720, 360, 0, 0⟩ ⟨0, -90, 1000⟩ 90
      (⟨600, 7⟩ :: List.replicate 359 ⟨50, 3⟩)
      (fun hs => absurd hs (by dsimp only; norm_num))
      (fun _ _ => ⟨0, 1, by norm_num, by simp, by dsimp only; norm_num,
        by dsimp only
           rw [List.getD_cons_succ, List.getD_eq_getElem _ _ (by simp), List.getElem_replicate]
           norm_num⟩)
      (fun _ hss => absurd (by norm_num : (90 : ℝ) < 0 + 720 / 2) hss)
  obtain ⟨hne1, hne2, hsum, hpin⟩ :=
    split_points_shape ⟨0, 720, 360, 0, 0⟩ ⟨0, -90, 1000⟩ 90 _ p1 p2 (by simp) heq
  exact ⟨p1, p2, heq, hne1, hne2, hsum, hpin⟩

/-! Exact evaluation of a warped sample for the state
(ssplat, ssplon, footprint) = (0, -20, xkmper * pi / 2), i.e. an angular
footprint radius of 45 degrees centered on the equator at longitude -20. -/

theorem S6_not_pole : ¬pole_is_covered ⟨0, -20, xkmper * (Real.pi / 2)⟩ := by
  have hpi := Real.pi_lt_315
  rintro (h | h)
  · rw [north_pole_is_covered] at h
    dsimp only at h
    have hlb := qrb_pole_distance_lb (-20) 90 (by norm_num) (Or.inl rfl)
    rw [xkmper] at h
    linarith
  · rw [south_pole_is_covered] at h
    dsimp only at h
    have hlb := qrb_pole_distance_lb (-20) (-90) (by norm_num) (Or.inr rfl)
    rw [xkmper] at h
    linarith

theorem sqrt_two_lt_two : Real.sqrt 2 < 2 := by
  nlinarith [Real.sq_sqrt (by norm_num : (0 : ℝ) ≤ 2), Real.sqrt_nonneg 2]

theorem arccos_sqrt2_one : arccos (Real.sqrt 2 / 2) 1 = Real.pi / 4 := by
  have hs2 : (0 : ℝ) < Real.sqrt 2 := Real.sqrt_pos.mpr (by norm_num)
  rw [arccos, if_pos ⟨by positivity, one_ne_zero⟩, if_pos one_pos, div_one,
    ← Real.cos_pi_div_four, Real.arccos_cos (by positivity) (by linarith [Real.pi_pos])]

theorem rangeCoords_S6_90 :
    rangeCoords ⟨0, -20, xkmper * (Real.pi / 2)⟩ 90 = (-65, 0) := by
  have hpi := Real.pi_pos
  have hbeta : 0.5 * (xkmper * (Real.pi / 2)) / xkmper = Real.pi / 4 := by
    rw [xkmper]
    norm_num
    ring
  have haz : de2ra * ((90 : ℕ) : ℝ) = Real.pi / 2 := by
    rw [de2ra]
    push_cast
    ring
  simp only [rangeCoords]
  rw [hbeta, haz]
  rw [zero_mul, Real.sin_zero, Real.cos_zero, Real.cos_pi_div_two]
  rw [show (0 : ℝ) * Real.cos (Real.pi / 4) + 0 * Real.sin (Real.pi / 4) * 1 = 0 by ring,
    Real.arcsin_zero, Real.sin_zero, Real.cos_zero]
  rw [show Real.cos (Real.pi / 4) - 0 * 0 = Real.sqrt 2 / 2 by
    rw [Real.cos_pi_div_four]; ring]
  rw [if_neg (by rintro ⟨hc, -⟩; norm_num at hc)]
  rw [if_neg (by
    rw [show (1 : ℝ) * 1 = 1 by ring, div_one, abs_of_nonneg (by positivity)]
    push_neg
    nlinarith [sqrt_two_lt_two])]
  rw [if_pos (by norm_num), show (1 : ℝ) * 1 = 1 by ring, arccos_sqrt2_one]
  have hval : (-20 : ℝ) * de2ra - Real.pi / 4 = -(13 * Real.pi / 36) := by
    rw [de2ra]
    ring
  rw [hval]
  rw [wrapUp_eq_self _ _ _ (by rintro ⟨-, hx⟩; nlinarith)]
  rw [wrapDown_eq_self _ _ _ (by rintro ⟨-, hx⟩; nlinarith)]
  rw [Prod.mk.injEq]
  constructor
  · rw [div_eq_iff (by rw [de2ra]; positivity), de2ra]
    ring
  · rw [zero_div]

theorem mirror_mlon_S6 : mirror_mlon ⟨0, -20, xkmper * (Real.pi / 2)⟩ (-65) = 25 := by
  rw [mirror_mlon]
  dsimp only
  rw [show (-20 : ℝ) - -65 = 45 by norm_num]
  rw [show wrapUp 360 0 (45 : ℝ) = 45 from
      wrapUp_eq_self _ _ _ (by rintro ⟨-, hx⟩; norm_num at hx)]
  rw [show wrapDown 360 360 (45 : ℝ) = 45 from
      wrapDown_eq_self _ _ _ (by rintro ⟨-, hx⟩; norm_num at hx)]
  rw [show |(45 : ℝ)| = 45 from abs_of_nonneg (by norm_num),
    show (-20 : ℝ) + 45 = 25 by norm_num]
  rw [show wrapDown 360 180 (25 : ℝ) = 25 from
      wrapDown_eq_self _ _ _ (by rintro ⟨-, hx⟩; norm_num at hx)]
  rw [show wrapUp 360 (-180) (25 : ℝ) = 25 from
      wrapUp_eq_self _ _ _ (by rintro ⟨-, hx⟩; norm_num at hx)]

theorem mirror_warped_S6 : mirror_warped ⟨0, -20, xkmper * (Real.pi / 2)⟩ (-65) 0 := by
  rw [mirror_warped]
  dsimp only
  rw [if_neg (by norm_num), mirror_mlon_S6]
  left
  norm_num

theorem warped_S6 (m : SatMap) (hm : m.left_side_lon = 0) :
    warped m ⟨0, -20, xkmper * (Real.pi / 2)⟩ := by
  refine ⟨90, by norm_num, ?_⟩
  rw [rangeCoords_S6_90, hm]
  exact mirror_warped_S6

theorem sspx_M6 : (lonlat_to_xy ⟨0, 720, 360, 2000, 0⟩ (-20) 0).1 = 520 := by
  rw [lonlat_to_xy]
  dsimp only
  rw [show (2000 : ℝ) + (-20 - 0) * 720 / 360 = 1960 by norm_num]
  rw [wrapUp_eq_self _ _ _ (by rintro ⟨-, hx⟩; norm_num at hx)]
  rw [wrapDown, dif_pos (by norm_num), show (1960 : ℝ) - 720 = 1240 by norm_num]
  rw [wrapDown, dif_pos (by norm_num), show (1240 : ℝ) - 720 = 520 by norm_num]
  rw [wrapDown_eq_self _ _ _ (by rintro ⟨-, hx⟩; norm_num at hx)]

theorem sspx_M7 : (lonlat_to_xy ⟨0, 720, 360, 1000, 0⟩ (-20) 0).1 = 240 := by
  rw [lonlat_to_xy]
  dsimp only
  rw [show (1000 : ℝ) + (-20 - 0) * 720 / 360 = 960 by norm_num]
  rw [wrapUp_eq_self _ _ _ (by rintro ⟨-, hx⟩; norm_num at hx)]
  rw [wrapDown, dif_pos (by norm_num), show (960 : ℝ) - 720 = 240 by norm_num]
  rw [wrapDown_eq_self _ _ _ (by rintro ⟨-, hx⟩; norm_num at hx)]

/-- Counterexample to claim C6 as stated: a warped, no-pole-covered input on
the map with origin_x = 2000 for which calculate_footprint does not return
two non-empty polylines at all: the forward scan of split_points runs off
the 360-point array, a crash in the original JS, modelled as none (every
wrapped x is at most the width 720, while the map midpoint is 2360). -/
theorem warped_crash_counterexample :
    ¬pole_is_covered ⟨0, -20, xkmper * (Real.pi / 2)⟩ ∧
      warped ⟨0, 720, 360, 2000, 0⟩ ⟨0, -20, xkmper * (Real.pi / 2)⟩ ∧
      calculate_footprint ⟨0, 720, 360, 2000, 0⟩ ⟨0, -20, xkmper * (Real.pi / 2)⟩ = none := by
  refine ⟨S6_not_pole, warped_S6 _ rfl, ?_⟩
  rw [calculate_footprint, if_neg S6_not_pole, if_pos (warped_S6 _ rfl)]
  rw [split_points]
  rw [if_neg (by dsimp only; norm_num)]
  rw [show (lonlat_to_xy ⟨0, 720, 360, 2000, 0⟩
      (Sat.ssplon ⟨0, -20, xkmper * (Real.pi / 2)⟩)
      (Sat.ssplat ⟨0, -20, xkmper * (Real.pi / 2)⟩)).1 = 520 from sspx_M6]
  rw [if_pos (by dsimp only; norm_num)]
  rw [scanUp_none _ _ _ ?_]
  · intro q hq hc
    have hb := samplePoints_x_bounds ⟨0, 720, 360, 2000, 0⟩
      ⟨0, -20, xkmper * (Real.pi / 2)⟩ (by norm_num) q hq
    dsimp only at hb hc
    linarith [hb.2]

/-- Counterexample to claim C7 as stated: on the same warped,
no-pole-covered state but the map with origin_x = 1000, the forward scan of
split_points never finds a point beyond the midpoint 1360 before the index
passes 359 (all wrapped x are at most 720), so an access is out of bounds
and split_points crashes (none). -/
theorem split_scan_oob_counterexample :
    warped ⟨0, 720, 360, 1000, 0⟩ ⟨0, -20, xkmper * (Real.pi / 2)⟩ ∧
      ¬pole_is_covered ⟨0, -20, xkmper * (Real.pi / 2)⟩ ∧
      split_points ⟨0, 720, 360, 1000, 0⟩ ⟨0, -20, xkmper * (Real.pi / 2)⟩
        (lonlat_to_xy ⟨0, 720, 360, 1000, 0⟩ (-20) 0).1
        (samplePoints ⟨0, 720, 360, 1000, 0⟩ ⟨0, -20, xkmper * (Real.pi / 2)⟩) = none := by
  refine ⟨warped_S6 _ rfl, S6_not_pole, ?_⟩
  rw [sspx_M7, split_points]
  rw [if_neg (by dsimp only; norm_num)]
  rw [if_pos (by norm_num)]
  rw [scanUp_none _ _ _ ?_]
  · intro q hq hc
    have hb := samplePoints_x_bounds ⟨0, 720, 360, 1000, 0⟩
      ⟨0, -20, xkmper * (Real.pi / 2)⟩ (by norm_num) q hq
    dsimp only at hb hc
    linarith [hb.2]

end Orbit

end
